import Mathlib

/-!
Shallow embedding of the ShiftSync scheduling core
(apps/scheduling/constraints.py, models.py, views.py, tasks.py, services.py,
apps/accounts/models.py, apps/locations/models.py), together with proofs about
the constraint pipeline, the swap workflow and the expiry sweep.

Modelling conventions:
  * Instants are integers counting minutes since an epoch that falls on a
    Monday 00:00 UTC, so `utcDate t = t.fdiv 1440` is the UTC calendar day
    number and day number `d` has Python weekday `d.emod 7` (Monday = 0).
    The source stores microsecond datetimes; every time value the claims touch
    is minute-aligned, and `datetime.max.time()` (23:59:59.999999) is modelled
    as minute 1439 of the day.
  * A timezone is a pair of offset functions: `offsetAt t` is the UTC offset
    (in minutes) in force at the UTC instant `t` (so local wall time is
    `t + offsetAt t`, as `astimezone` computes), and `offsetAtWall w` is the
    offset attributed to the local wall time `w` (so `datetime.combine(date,
    time, tzinfo=tz).astimezone(utc)` is `w - offsetAtWall w`). Concrete zones
    used by the scenarios are fixed-offset instances of this structure.
  * Django querysets over the database become list filters over an explicit
    `DB` value; `.first()` becomes `List.find?` (the filtered sets the code
    takes `.first()` of are singletons under the model's unique constraints).
  * `shift__start_utc__date=d` lookups compare the date of `start_utc` in the
    active Django timezone, which is `TIME_ZONE = "UTC"` (settings/base.py),
    i.e. `utcDate`.
  * Expected Python exceptions inside the availability check (the `NameError`
    on `days` in the weekly-unavailable branch of `check_availability`, and
    the `TypeError` from `datetime.combine` on a `None` time) are reified as
    `Except.error ()`; a result that the code actually returns is `Except.ok`.
  * Duration hours (`total_seconds() / 3600`) are tracked as exact integer
    minutes (`duration_minutes = duration_hours * 60`), and every comparison
    against an hour threshold is scaled by 60, which is exact. Reason strings
    follow the source messages; the `%.1f` float format applied to an
    hour quantity held as minutes is modelled by `fmtHours1` and apostrophe
    and quote characters of the source messages are omitted.
-/

/-- Offset-function model of an IANA timezone (see module conventions). -/
structure Tz where
  tzName : String
  offsetAt : Int → Int
  offsetAtWall : Int → Int

/-- Local wall-clock minutes of UTC instant `t` under `tz` (astimezone). -/
def localWall (tz : Tz) (t : Int) : Int :=
  t + tz.offsetAt t

/-- Site-local calendar day number of a UTC instant. -/
def localDate (tz : Tz) (t : Int) : Int :=
  (localWall tz t).fdiv 1440

/-- Python `weekday()` of the site-local date (epoch day 0 is a Monday). -/
def localWeekday (tz : Tz) (t : Int) : Int :=
  (localDate tz t).emod 7

/-- UTC instant of a local wall time under `tz` (combine + astimezone(utc)). -/
def wallToUtc (tz : Tz) (w : Int) : Int :=
  w - tz.offsetAtWall w

/-- UTC instant of `datetime.combine(date, time, tzinfo=tz)`. -/
def combineToUtc (tz : Tz) (d : Int) (timeOfDay : Int) : Int :=
  wallToUtc tz (d * 1440 + timeOfDay)

/-- UTC calendar day number of a UTC instant (Django `__date` under TIME_ZONE="UTC"). -/
def utcDate (t : Int) : Int :=
  t.fdiv 1440

/-- The UTC timezone (offset 0 everywhere). -/
def utcTz : Tz :=
  ⟨"UTC", fun _ => 0, fun _ => 0⟩

/-- Zero-padded two-digit rendering of a nonnegative minute/hour count. -/
def pad2 (n : Int) : String :=
  if n < 10 then "0" ++ toString n else toString n

/-- Model of `strftime("%H:%M")` on a UTC datetime given as epoch minutes. -/
def fmtHM (t : Int) : String :=
  pad2 ((t.emod 1440).fdiv 60) ++ ":" ++ pad2 (t.emod 60)

/-- Model of the Python float format `f"{x:.1f}"` applied to the hour value
`m / 60` where `m` is a nonnegative minute count: one decimal of the rounded
tenths-of-hours (rounding mode is irrelevant at multiples of one tenth, which
is all the claims evaluate). -/
def fmtHours1 (m : Int) : String :=
  let n : Int := (m * 10 + 30).fdiv 60
  toString (n.fdiv 10) ++ "." ++ toString (n.emod 10)

-- ---------------------------------------------------------------------------
-- Data model (apps/accounts/models.py, apps/locations/models.py,
-- apps/scheduling/models.py)
-- ---------------------------------------------------------------------------

/-- User.Role (apps/accounts/models.py). -/
inductive Role where
  | staff
  | manager
  | admin
deriving DecidableEq, Repr

/-- Read-only snapshot of a User row (fields the scheduling core reads). -/
structure User where
  id : Nat
  fullName : String
  role : Role
  isActive : Bool
  skills : List Nat
deriving DecidableEq, Repr

/-- Skill row (id plus display name, used in messages). -/
structure Skill where
  id : Nat
  displayName : String
deriving DecidableEq, Repr

/-- Location row: name and IANA timezone (via `get_zoneinfo`). -/
structure Location where
  id : Nat
  name : String
  tz : Tz

/-- LocationCertification row (apps/locations/models.py). -/
structure LocationCertification where
  userId : Nat
  locationId : Nat
  isActive : Bool
deriving DecidableEq, Repr

/-- StaffAvailability.Recurrence (apps/accounts/models.py). -/
inductive Recurrence where
  | weekly
  | oneOff
deriving DecidableEq, Repr

/-- StaffAvailability row. Times are minutes into the day; `none` times mean
unavailable for the whole day; `tz` is the zone the times were entered in. -/
structure StaffAvailability where
  userId : Nat
  recurrence : Recurrence
  dayOfWeek : Option Int
  specificDate : Option Int
  startTime : Option Int
  endTime : Option Int
  tz : Tz
  notes : String

/-- StaffAvailability.is_unavailable_day (apps/accounts/models.py line 275). -/
def StaffAvailability.is_unavailable_day (a : StaffAvailability) : Bool :=
  a.startTime.isNone && a.endTime.isNone

/-- Shift row (apps/scheduling/models.py). -/
structure Shift where
  id : Nat
  locationId : Nat
  requiredSkillId : Nat
  headcountNeeded : Nat
  startUtc : Int
  endUtc : Int
  isPublished : Bool
deriving DecidableEq, Repr

/-- Shift.duration_hours (models.py line 107), held as exact minutes: the
source computes `total_seconds() / 3600` decimal hours; the model tracks
`duration_hours * 60` and scales every threshold by 60. -/
def Shift.duration_minutes (s : Shift) : Int :=
  s.endUtc - s.startUtc

/-- ShiftAssignment.Status. -/
inductive AssignmentStatus where
  | assigned
  | swapPending
  | covered
  | dropped
deriving DecidableEq, Repr

/-- ShiftAssignment row. -/
structure ShiftAssignment where
  id : Nat
  shiftId : Nat
  userId : Nat
  status : AssignmentStatus
  assignedById : Option Nat
deriving DecidableEq, Repr

/-- An assignment status counted as active by every constraint query. -/
def activeStatus (st : AssignmentStatus) : Bool :=
  st == AssignmentStatus.assigned || st == AssignmentStatus.swapPending

/-- SwapRequest.Type. -/
inductive SwapType where
  | swap
  | drop
deriving DecidableEq, Repr

/-- SwapRequest.Status. -/
inductive SwapStatus where
  | pendingAcceptance
  | pendingPickup
  | pendingManager
  | approved
  | rejected
  | cancelled
  | expired
deriving DecidableEq, Repr

/-- SwapRequest row. -/
structure SwapRequest where
  id : Nat
  requesterId : Nat
  targetId : Option Nat
  claimedById : Option Nat
  assignmentId : Nat
  requestType : SwapType
  status : SwapStatus
  expiresAt : Option Int
  createdAt : Int
  reviewedById : Option Nat
deriving DecidableEq, Repr

/-- SwapRequest.is_pending (models.py line 340). -/
def SwapRequest.is_pending (r : SwapRequest) : Bool :=
  r.status == SwapStatus.pendingAcceptance ||
  r.status == SwapStatus.pendingPickup ||
  r.status == SwapStatus.pendingManager

/-- ManagerOverride row (models.py line 349). -/
structure ManagerOverride where
  managerId : Nat
  assignmentId : Nat
  constraintViolated : String
  reason : String
deriving DecidableEq, Repr

/-- The database state the scheduling core reads and writes.
`nextAssignmentId` models the assignment primary-key sequence. -/
structure DB where
  locations : List Location
  skills : List Skill
  users : List User
  certifications : List LocationCertification
  availabilities : List StaffAvailability
  shifts : List Shift
  assignments : List ShiftAssignment
  swaps : List SwapRequest
  overrides : List ManagerOverride
  nextAssignmentId : Nat

/-- Fallback location for the (FK-impossible) case of a dangling location id. -/
def fallbackLocation : Location :=
  ⟨0, "", utcTz⟩

/-- Resolve `shift.location` (FK, always present in a consistent database). -/
def DB.location (db : DB) (s : Shift) : Location :=
  (db.locations.find? (fun l => l.id == s.locationId)).getD fallbackLocation

/-- Resolve a shift by primary key. -/
def DB.findShift (db : DB) (i : Nat) : Option Shift :=
  db.shifts.find? (fun s => s.id == i)

/-- Resolve a user by primary key. -/
def DB.findUser (db : DB) (i : Nat) : Option User :=
  db.users.find? (fun u => u.id == i)

/-- Resolve an assignment by primary key. -/
def DB.findAssignment (db : DB) (i : Nat) : Option ShiftAssignment :=
  db.assignments.find? (fun a => a.id == i)

/-- Display name of a skill (used only inside reason messages). -/
def DB.skillName (db : DB) (i : Nat) : String :=
  ((db.skills.find? (fun sk => sk.id == i)).map Skill.displayName).getD ""

/-- The active (ASSIGNED or SWAP_PENDING) assignments of a worker joined with
their shifts, as every constraint query reads them. -/
def activeWithShifts (db : DB) (userId : Nat) : List (ShiftAssignment × Shift) :=
  db.assignments.filterMap (fun a =>
    if a.userId == userId && activeStatus a.status then
      (db.findShift a.shiftId).map (fun sh => (a, sh))
    else none)

-- ---------------------------------------------------------------------------
-- Configuration (settings/base.py SHIFTSYNC dict, default values)
-- ---------------------------------------------------------------------------

/-- The SHIFTSYNC settings dictionary with its shipped default values. -/
structure ShiftSyncConfig where
  MIN_REST_HOURS : Int
  WEEKLY_HOURS_WARNING : Int
  WEEKLY_HOURS_HARD_LIMIT : Int
  DAILY_HOURS_WARNING : Int
  DAILY_HOURS_HARD_LIMIT : Int
  CONSECUTIVE_DAYS_WARNING : Nat
  CONSECUTIVE_DAYS_OVERRIDE : Nat
  MAX_PENDING_SWAP_REQUESTS : Nat
  DROP_REQUEST_EXPIRY_HOURS : Int

/-- Default configuration (settings/base.py lines 192-212). -/
def SHIFTSYNC : ShiftSyncConfig :=
  ⟨10, 35, 40, 8, 12, 6, 7, 3, 24⟩

-- ---------------------------------------------------------------------------
-- Result types (constraints.py lines 52-116)
-- ---------------------------------------------------------------------------

/-- Suggestion dataclass (constraints.py line 53). -/
structure Suggestion where
  userId : Nat
  fullName : String
  reason : String
deriving DecidableEq, Repr

/-- ConstraintResult dataclass (constraints.py line 62). -/
structure ConstraintResult where
  ok : Bool
  severity : String
  constraintId : String
  reason : String
  suggestions : List Suggestion
deriving DecidableEq, Repr

/-- ConstraintResult.success classmethod. -/
def ConstraintResult.success : ConstraintResult :=
  ⟨true, "ok", "", "", []⟩

/-- ConstraintResult.warning classmethod (ok stays true: warnings inform). -/
def ConstraintResult.mkWarning (cid reason : String) (sugg : List Suggestion) : ConstraintResult :=
  ⟨true, "warning", cid, reason, sugg⟩

/-- ConstraintResult.block classmethod. -/
def ConstraintResult.mkBlock (cid reason : String) (sugg : List Suggestion) : ConstraintResult :=
  ⟨false, "block", cid, reason, sugg⟩

/-- ConstraintResult.override_required classmethod. -/
def ConstraintResult.mkOverrideRequired (cid reason : String) : ConstraintResult :=
  ⟨false, "override_required", cid, reason, []⟩

-- ---------------------------------------------------------------------------
-- Individual constraint checks (constraints.py lines 124-599)
-- ---------------------------------------------------------------------------

/-- Helper `_get_skilled_available_suggestions` (constraints.py line 715):
staff with an active certification at the location and the required skill,
first five. -/
def get_skilled_available_suggestions (db : DB) (s : Shift) : List Suggestion :=
  let certifiedIds := (db.certifications.filter
    (fun c => c.locationId == s.locationId && c.isActive)).map LocationCertification.userId
  let candidates := (db.users.filter (fun u =>
    certifiedIds.contains u.id && u.role == Role.staff &&
    u.skills.contains s.requiredSkillId && u.isActive)).take 5
  candidates.map (fun c =>
    ⟨c.id, c.fullName,
      "Certified at " ++ (db.location s).name ++ ", has " ++
        db.skillName s.requiredSkillId ++ " skill."⟩)

/-- Constraint 1: check_skill_match (constraints.py line 124). -/
def check_skill_match (db : DB) (u : User) (s : Shift) : ConstraintResult :=
  if u.skills.contains s.requiredSkillId then ConstraintResult.success
  else
    ConstraintResult.mkBlock "skill_mismatch"
      (u.fullName ++ " does not have the " ++ db.skillName s.requiredSkillId ++
        " skill required for this shift.")
      (get_skilled_available_suggestions db s)

/-- Constraint 2: check_location_certification (constraints.py line 153). -/
def check_location_certification (db : DB) (u : User) (s : Shift) : ConstraintResult :=
  let hasCertification := db.certifications.any
    (fun c => c.userId == u.id && c.locationId == s.locationId && c.isActive)
  if hasCertification then ConstraintResult.success
  else
    let hasAny := db.certifications.any
      (fun c => c.userId == u.id && c.locationId == s.locationId)
    let detail := if hasAny then " (certification was revoked)"
      else " (never certified for this location)"
    ConstraintResult.mkBlock "location_certification"
      (u.fullName ++ " is not certified to work at " ++ (db.location s).name ++
        detail ++ ".") []

/-- Helper `_check_time_window_covers_shift` (constraints.py line 248).
The window is anchored to the shift's site-local date, interpreted in the
availability entry's own stored timezone, converted to UTC, and must contain
the shift's UTC interval. A `None` start or end time reaches
`datetime.combine` and raises TypeError, reified as `.error ()`. -/
def check_time_window_covers_shift (db : DB) (u : User) (availability : StaffAvailability)
    (s : Shift) (window_type : String) : Except Unit ConstraintResult :=
  match availability.startTime, availability.endTime with
  | some st, some en =>
    let local_tz := (db.location s).tz
    let shift_date_local := localDate local_tz s.startUtc
    let avail_start_utc := combineToUtc availability.tz shift_date_local st
    let avail_end_utc := combineToUtc availability.tz shift_date_local en
    if avail_start_utc ≤ s.startUtc ∧ avail_end_utc ≥ s.endUtc then
      Except.ok ConstraintResult.success
    else
      Except.ok (ConstraintResult.mkBlock "availability_window_mismatch"
        (u.fullName ++ "s " ++ window_type ++ " (" ++
          fmtHM (st.emod 1440) ++ "-" ++ fmtHM (en.emod 1440) ++ " " ++
          availability.tz.tzName ++ ") does not cover this shift (" ++
          fmtHM s.startUtc ++ " - " ++ fmtHM s.endUtc ++ " UTC).") [])
  | _, _ => Except.error ()

/-- Constraint 3: check_availability (constraints.py line 185).
A one-off entry for the site-local date overrides weekly data; the weekly
branch for an unavailable day evaluates `days[shift_weekday]` where `days`
is bound only inside the earlier `if not weekly` branch (source line 230),
so that branch raises NameError, reified as `.error ()`. -/
def check_availability (db : DB) (u : User) (s : Shift) : Except Unit ConstraintResult :=
  let local_tz := (db.location s).tz
  let shift_date := localDate local_tz s.startUtc
  let shift_weekday := localWeekday local_tz s.startUtc
  match db.availabilities.find? (fun a =>
    decide (a.userId = u.id) && a.recurrence == Recurrence.oneOff &&
    a.specificDate == some shift_date) with
  | some one_off =>
    if one_off.is_unavailable_day then
      Except.ok (ConstraintResult.mkBlock "availability_one_off_unavailable"
        (u.fullName ++ " has marked day " ++ toString shift_date ++
          " as unavailable." ++
          (if one_off.notes ≠ "" then " Note: " ++ one_off.notes else "")) [])
    else check_time_window_covers_shift db u one_off s "one-off availability"
  | none =>
    match db.availabilities.find? (fun a =>
      decide (a.userId = u.id) && a.recurrence == Recurrence.weekly &&
      a.dayOfWeek == some shift_weekday) with
    | none =>
      Except.ok (ConstraintResult.mkBlock "availability_no_window"
        (u.fullName ++ " has not set availability for weekday " ++
          toString shift_weekday ++ ". Ask them to update their availability.") [])
    | some weekly =>
      if weekly.is_unavailable_day then
        Except.error ()
      else check_time_window_covers_shift db u weekly s "weekly availability"

/-- The first conflicting active assignment for the double-booking query
(constraints.py lines 315-328): active status, interval overlap with
`[start, end)`, excluding the shift being re-assigned. -/
def conflictingAssignment (db : DB) (u : User) (s : Shift) : Option (ShiftAssignment × Shift) :=
  (activeWithShifts db u.id).find? (fun p =>
    decide (p.2.startUtc < s.endUtc) && decide (p.2.endUtc > s.startUtc) &&
    decide (p.2.id ≠ s.id))

/-- Constraint 4: check_no_double_booking (constraints.py line 299). -/
def check_no_double_booking (db : DB) (u : User) (s : Shift) : ConstraintResult :=
  match conflictingAssignment db u s with
  | none => ConstraintResult.success
  | some conflicting =>
    ConstraintResult.mkBlock "double_booking"
      (u.fullName ++ " is already assigned to a shift at " ++
        (db.location conflicting.2).name ++ " from " ++
        fmtHM conflicting.2.startUtc ++ " to " ++ fmtHM conflicting.2.endUtc ++
        " UTC on that day, which overlaps with this shift.") []

/-- Constraint 5: check_minimum_rest (constraints.py line 345). -/
def check_minimum_rest (db : DB) (u : User) (s : Shift) : ConstraintResult :=
  let min_rest : Int := SHIFTSYNC.MIN_REST_HOURS * 60
  let too_recent := (activeWithShifts db u.id).find? (fun p =>
    decide (p.2.endUtc > s.startUtc - min_rest) && decide (p.2.endUtc ≤ s.startUtc) &&
    decide (p.2.id ≠ s.id))
  match too_recent with
  | some p =>
    ConstraintResult.mkBlock "minimum_rest_before"
      (u.fullName ++ " would only have " ++ fmtHours1 (s.startUtc - p.2.endUtc) ++
        " hours of rest after their shift ending at " ++ (db.location p.2).name ++
        ". The minimum is " ++ toString SHIFTSYNC.MIN_REST_HOURS ++ " hours.") []
  | none =>
    let too_soon := (activeWithShifts db u.id).find? (fun p =>
      decide (p.2.startUtc < s.endUtc + min_rest) && decide (p.2.startUtc ≥ s.endUtc) &&
      decide (p.2.id ≠ s.id))
    match too_soon with
    | some p =>
      ConstraintResult.mkBlock "minimum_rest_after"
        (u.fullName ++ " has a shift starting at " ++ (db.location p.2).name ++
          " only " ++ fmtHours1 (p.2.startUtc - s.endUtc) ++
          " hours after this shift would end. The minimum rest period is " ++
          toString SHIFTSYNC.MIN_REST_HOURS ++ " hours.") []
    | none => ConstraintResult.success

/-- Constraint 6: check_daily_hours (constraints.py line 422). The calendar
day filter `shift__start_utc__date=shift_date` compares the UTC date of each
existing shift against the site-local date of the proposed shift. -/
def check_daily_hours (db : DB) (u : User) (s : Shift) : ConstraintResult :=
  let local_tz := (db.location s).tz
  let shift_date := localDate local_tz s.startUtc
  let existing := (activeWithShifts db u.id).filter (fun p =>
    decide (utcDate p.2.startUtc = shift_date) && decide (p.2.id ≠ s.id))
  let existing_minutes : Int := (existing.map (fun p => p.2.duration_minutes)).sum
  let total_minutes : Int := existing_minutes + s.duration_minutes
  if total_minutes > SHIFTSYNC.DAILY_HOURS_HARD_LIMIT * 60 then
    ConstraintResult.mkBlock "daily_hours_exceeded"
      ("Assigning this " ++ fmtHours1 s.duration_minutes ++ "h shift would give " ++
        u.fullName ++ " " ++ fmtHours1 total_minutes ++
        " hours in a single day, exceeding the 12-hour daily limit.") []
  else if total_minutes > SHIFTSYNC.DAILY_HOURS_WARNING * 60 then
    ConstraintResult.mkWarning "daily_hours_warning"
      (u.fullName ++ " will have " ++ fmtHours1 total_minutes ++
        " hours on this day, exceeding the 8-hour guideline. This is allowed but may require overtime pay.") []
  else ConstraintResult.success

/-- The worked hours a worker already has inside the site-local ISO week of
the proposed shift (constraints.py lines 500-515): active assignments whose
shift starts between local Monday 00:00 and local Sunday end of day. -/
def currentWeekMinutes (db : DB) (u : User) (s : Shift) : Int :=
  let local_tz := (db.location s).tz
  let shift_date := localDate local_tz s.startUtc
  let monday := shift_date - shift_date.emod 7
  let sunday := monday + 6
  let week_start_utc := combineToUtc local_tz monday 0
  let week_end_utc := combineToUtc local_tz sunday 1439
  let existing := (activeWithShifts db u.id).filter (fun p =>
    decide (p.2.startUtc ≥ week_start_utc) && decide (p.2.startUtc ≤ week_end_utc) &&
    decide (p.2.id ≠ s.id))
  (existing.map (fun p => p.2.duration_minutes)).sum

/-- Constraint 7: check_weekly_hours (constraints.py line 477). -/
def check_weekly_hours (db : DB) (u : User) (s : Shift) : ConstraintResult :=
  let current_minutes := currentWeekMinutes db u s
  let projected_minutes := current_minutes + s.duration_minutes
  if projected_minutes ≥ SHIFTSYNC.WEEKLY_HOURS_HARD_LIMIT * 60 then
    ConstraintResult.mkBlock "weekly_hours_exceeded"
      (u.fullName ++ " already has " ++ fmtHours1 current_minutes ++
        " hours this week. Adding this " ++ fmtHours1 s.duration_minutes ++
        "h shift would bring the total to " ++ fmtHours1 projected_minutes ++
        " hours, exceeding the 40-hour limit.") []
  else if projected_minutes ≥ SHIFTSYNC.WEEKLY_HOURS_WARNING * 60 then
    ConstraintResult.mkWarning "weekly_hours_warning"
      (u.fullName ++ " will have " ++ fmtHours1 projected_minutes ++
        " hours this week, approaching the 40-hour overtime threshold. Current: " ++
        fmtHours1 current_minutes ++ "h, adding: " ++ fmtHours1 s.duration_minutes ++ "h.") []
  else ConstraintResult.success

/-- Whether the worker has any active assignment whose shift starts on UTC
calendar day `d` (the `has_work` query of check_consecutive_days; the
`__date` lookup evaluates in TIME_ZONE = "UTC"). -/
def hasWorkOnUtcDate (db : DB) (u : User) (d : Int) : Bool :=
  db.assignments.any (fun a =>
    decide (a.userId = u.id) && activeStatus a.status &&
    (match db.findShift a.shiftId with
     | some sh => decide (utcDate sh.startUtc = d)
     | none => false))

/-- The backwards walk of check_consecutive_days (constraints.py lines
564-576): up to `fuel` days back from `check_date`, counting while each day
has work. -/
def consecutiveBeforeAux (db : DB) (u : User) : Nat → Int → Nat
  | 0, _ => 0
  | fuel + 1, check_date =>
    if hasWorkOnUtcDate db u check_date then
      1 + consecutiveBeforeAux db u fuel (check_date - 1)
    else 0

/-- Constraint 8: check_consecutive_days (constraints.py line 541). -/
def check_consecutive_days (db : DB) (u : User) (s : Shift) : ConstraintResult :=
  let local_tz := (db.location s).tz
  let shift_date := localDate local_tz s.startUtc
  let consecutive_before := consecutiveBeforeAux db u 7 (shift_date - 1)
  let total_consecutive := consecutive_before + 1
  if total_consecutive ≥ SHIFTSYNC.CONSECUTIVE_DAYS_OVERRIDE then
    ConstraintResult.mkOverrideRequired "consecutive_days_7"
      (u.fullName ++ " has worked " ++ toString consecutive_before ++
        " consecutive days. This would be their 7th consecutive day, which requires a documented manager override.")
  else if total_consecutive ≥ SHIFTSYNC.CONSECUTIVE_DAYS_WARNING then
    ConstraintResult.mkWarning "consecutive_days_6"
      (u.fullName ++ " has worked " ++ toString consecutive_before ++
        " consecutive days. This would be their 6th consecutive day. A 7th would require an override.") []
  else ConstraintResult.success

-- ---------------------------------------------------------------------------
-- Constraint pipeline and engine (constraints.py lines 609-707)
-- ---------------------------------------------------------------------------

/-- The results of CONSTRAINT_PIPELINE in order. Checks that cannot raise are
injected with `.ok`; the availability check carries its own `Except`. Listing
the values is faithful because every check is a pure function: the loop below
returns before inspecting entries the Python loop never evaluates, so a
reified exception in a later entry is never surfaced unless the loop actually
reaches that check. -/
def engineChecksList (db : DB) (u : User) (s : Shift) : List (Except Unit ConstraintResult) :=
  [Except.ok (check_skill_match db u s),
   Except.ok (check_location_certification db u s),
   check_availability db u s,
   Except.ok (check_no_double_booking db u s),
   Except.ok (check_minimum_rest db u s),
   Except.ok (check_daily_hours db u s),
   Except.ok (check_weekly_hours db u s),
   Except.ok (check_consecutive_days db u s)]

/-- The loop body of ConstraintEngine.check (constraints.py lines 660-685):
ok results are skipped, block and override_required results are returned
immediately, warnings are collected, and at the end the first collected
warning (or success) is returned. -/
def engineLoop : List (Except Unit ConstraintResult) → List ConstraintResult →
    Except Unit ConstraintResult
  | [], warnings =>
    match warnings with
    | [] => Except.ok ConstraintResult.success
    | w :: _ => Except.ok w
  | c :: rest, warnings =>
    match c with
    | Except.error e => Except.error e
    | Except.ok r =>
      if r.severity = "ok" then engineLoop rest warnings
      else if r.severity = "block" ∨ r.severity = "override_required" then Except.ok r
      else engineLoop rest (warnings ++ [r])

/-- ConstraintEngine.check (constraints.py line 633). -/
def ConstraintEngine.check (db : DB) (u : User) (s : Shift) : Except Unit ConstraintResult :=
  engineLoop (engineChecksList db u s) []

/-- ConstraintEngine.check_all (constraints.py line 687): every non-ok result
in pipeline order; an exception from a check still propagates. -/
def ConstraintEngine.check_all (db : DB) (u : User) (s : Shift) :
    Except Unit (List ConstraintResult) :=
  go (engineChecksList db u s)
where
  go : List (Except Unit ConstraintResult) → Except Unit (List ConstraintResult)
    | [] => Except.ok []
    | c :: rest =>
      match c with
      | Except.error e => Except.error e
      | Except.ok r =>
        match go rest with
        | Except.error e => Except.error e
        | Except.ok l => Except.ok (if r.severity ≠ "ok" then r :: l else l)

/-- Severity of an engine outcome ("error" encodes a propagated exception). -/
def sevOf (x : Except Unit ConstraintResult) : String :=
  match x with
  | Except.ok r => r.severity
  | Except.error _ => "error"

/-- Constraint id of an engine outcome. -/
def cidOf (x : Except Unit ConstraintResult) : String :=
  match x with
  | Except.ok r => r.constraintId
  | Except.error _ => ""

/-- Ok flag of an engine outcome (an exception is not an ok result). -/
def okOf (x : Except Unit ConstraintResult) : Bool :=
  match x with
  | Except.ok r => r.ok
  | Except.error _ => false

-- ---------------------------------------------------------------------------
-- Derived shift facts (models.py) and the state-changing operations
-- (apps/scheduling/views.py, tasks.py, services.py)
-- ---------------------------------------------------------------------------

/-- Python str.strip() on the override reason. (Equivalent to String.trim,
written with structural list recursion so that concrete values reduce.) -/
def pyStrip (s : String) : String :=
  ⟨((s.data.dropWhile Char.isWhitespace).reverse.dropWhile Char.isWhitespace).reverse⟩

/-- Shift.assigned_count (models.py line 147): active assignments on a shift. -/
def Shift.assigned_count (db : DB) (s : Shift) : Nat :=
  (db.assignments.filter (fun a => a.shiftId == s.id && activeStatus a.status)).length

/-- Shift.is_fully_staffed (models.py line 154). -/
def Shift.is_fully_staffed (db : DB) (s : Shift) : Bool :=
  Shift.assigned_count db s ≥ s.headcountNeeded

/-- claim_shift (views.py line 667): a staff member claims an open shift.
The only guard is the fully-staffed test; no constraint check runs. A missing
shift is a 404 with no state change. If the claimer already holds an active
row on the shift, the unique_active_assignment_per_shift constraint makes the
create raise IntegrityError and ATOMIC_REQUESTS (settings/base.py line 131)
rolls the whole request back, so the state is unchanged. -/
def claim_shift (db : DB) (shiftId : Nat) (userId : Nat) : DB :=
  match db.findShift shiftId with
  | none => db
  | some shift =>
    if Shift.is_fully_staffed db shift then db
    else if db.assignments.any (fun a =>
        a.shiftId == shift.id && a.userId == userId && activeStatus a.status) then db
    else
      { db with
        assignments := db.assignments ++
          [⟨db.nextAssignmentId, shift.id, userId, AssignmentStatus.assigned, some userId⟩],
        nextAssignmentId := db.nextAssignmentId + 1 }

/-- AssignStaffView.post (views.py line 811). Missing rows, a propagated
exception from the engine, a hard block, and a reasonless override_required
all leave the state unchanged (an error/redirect response); `get_or_create`
finds an existing (shift, user) row of any status and then changes nothing.
When severity is override_required and a reason was supplied, the assignment
and a ManagerOverride record are created. -/
def assign_staff (db : DB) (shiftId userId : Nat) (overrideReason : String)
    (managerId : Nat) : DB :=
  match db.findShift shiftId, db.findUser userId with
  | some shift, some staff_member =>
    (match ConstraintEngine.check db staff_member shift with
     | Except.error _ => db
     | Except.ok result =>
       let proceed : DB :=
         if db.assignments.any (fun a => a.shiftId == shift.id && a.userId == staff_member.id) then db
         else
           let newA : ShiftAssignment :=
             ⟨db.nextAssignmentId, shift.id, staff_member.id, AssignmentStatus.assigned,
              some managerId⟩
           let db1 := { db with assignments := db.assignments ++ [newA],
                                nextAssignmentId := db.nextAssignmentId + 1 }
           if result.severity = "override_required" then
             { db1 with overrides := db1.overrides ++
                [⟨managerId, newA.id, result.constraintId, pyStrip overrideReason⟩] }
           else db1
       if result.ok = false then
         if result.severity = "override_required" then
           if pyStrip overrideReason = "" then db else proceed
         else db
       else proceed)
  | _, _ => db

/-- The incoming staff member of a swap/drop request (views.py line 572). -/
def incomingIdOf (r : SwapRequest) : Option Nat :=
  if r.requestType == SwapType.swap then r.targetId else r.claimedById

/-- SwapReviewView.post, action approve (views.py lines 571-599). The engine
is re-run against the incoming worker; a result that is not ok and not
override_required aborts with no state change (override_required is NOT
stopped and no reason is read). Then the originating assignment is saved as
COVERED, a new ASSIGNED assignment is created, and the request becomes
APPROVED. If the incoming worker already has an active row on the shift, the
partial unique constraint unique_active_assignment_per_shift makes the create
raise IntegrityError, and ATOMIC_REQUESTS (settings/base.py line 131) rolls
the whole request - including the COVERED save - back, leaving the state
unchanged. No status precondition is checked on the request itself. -/
def approve_swap (db : DB) (swapId : Nat) (managerId : Nat) : DB :=
  match db.swaps.find? (fun r => r.id == swapId) with
  | none => db
  | some swap =>
    match incomingIdOf swap with
    | none => db
    | some incomingId =>
      match db.findUser incomingId, db.findAssignment swap.assignmentId with
      | some incoming, some asg =>
        (match db.findShift asg.shiftId with
         | none => db
         | some shift =>
           match ConstraintEngine.check db incoming shift with
           | Except.error _ => db
           | Except.ok result =>
             if result.ok = false ∧ result.severity ≠ "override_required" then db
             else
               let coveredMap : List ShiftAssignment := db.assignments.map
                 (fun (a : ShiftAssignment) =>
                   if a.id == asg.id then { a with status := AssignmentStatus.covered } else a)
               let db1 : DB := { db with assignments := coveredMap }
               if db1.assignments.any (fun a =>
                   a.shiftId == shift.id && a.userId == incoming.id && activeStatus a.status) then
                 db
               else
                 { db1 with
                   assignments := db1.assignments ++
                     [⟨db1.nextAssignmentId, shift.id, incoming.id,
                       AssignmentStatus.assigned, some managerId⟩],
                   nextAssignmentId := db1.nextAssignmentId + 1,
                   swaps := db1.swaps.map (fun (r : SwapRequest) =>
                     if r.id == swap.id then
                       { r with status := SwapStatus.approved, reviewedById := some managerId }
                     else r) })
      | _, _ => db

/-- SwapListView.post, action cancel (views.py lines 534-543): the requester
cancels any of their own pending requests; the originating assignment is
restored to ASSIGNED. -/
def cancel_swap (db : DB) (swapId : Nat) (userId : Nat) : DB :=
  match db.swaps.find? (fun r => r.id == swapId) with
  | none => db
  | some swap =>
    if swap.requesterId == userId && swap.is_pending then
      { db with
        swaps := db.swaps.map (fun r =>
          if r.id == swap.id then { r with status := SwapStatus.cancelled } else r),
        assignments := db.assignments.map (fun a =>
          if a.id == swap.assignmentId then { a with status := AssignmentStatus.assigned } else a) }
    else db

/-- Eligibility of a drop request for the expiry sweep (tasks.py lines 46-50). -/
def dropExpireCond (now : Int) (r : SwapRequest) : Bool :=
  r.requestType == SwapType.drop && r.status == SwapStatus.pendingPickup &&
  (match r.expiresAt with
   | some e => decide (e < now)
   | none => false)

/-- expire_drop_requests (tasks.py line 29): every eligible drop request
becomes EXPIRED and its originating assignment is restored to ASSIGNED. -/
def expire_drop_requests (db : DB) (now : Int) : DB :=
  { db with
    swaps := db.swaps.map (fun r =>
      if dropExpireCond now r then { r with status := SwapStatus.expired } else r),
    assignments := db.assignments.map (fun a =>
      if db.swaps.any (fun r => dropExpireCond now r && r.assignmentId == a.id) then
        { a with status := AssignmentStatus.assigned }
      else a) }

/-- Eligibility of a swap request for the expiry sweep (tasks.py lines 80-85):
PENDING_ACCEPTANCE and created more than 24 hours before `now`. -/
def swapExpireCond (now : Int) (r : SwapRequest) : Bool :=
  r.requestType == SwapType.swap && r.status == SwapStatus.pendingAcceptance &&
  decide (r.createdAt < now - 24 * 60)

/-- expire_swap_requests (tasks.py line 68). -/
def expire_swap_requests (db : DB) (now : Int) : DB :=
  { db with
    swaps := db.swaps.map (fun r =>
      if swapExpireCond now r then { r with status := SwapStatus.expired } else r),
    assignments := db.assignments.map (fun a =>
      if db.swaps.any (fun r => swapExpireCond now r && r.assignmentId == a.id) then
        { a with status := AssignmentStatus.assigned }
      else a) }

/-- One run of the whole expiry sweep: both periodic tasks. -/
def expirySweep (db : DB) (now : Int) : DB :=
  expire_swap_requests (expire_drop_requests db now) now

/-- Outcome of ShiftAssignmentService.assign (services.py). -/
inductive AssignOutcome where
  | created (a : ShiftAssignment)
  | rejected (r : ConstraintResult)
deriving DecidableEq, Repr

/-- ShiftAssignmentService.assign (services.py line 16): run the engine,
return the structured rejection when the result is not ok, otherwise create
the assignment (the partial unique constraint raises on a duplicate active
row, modelled as `.error`). -/
def ShiftAssignmentService.assign (db : DB) (u : User) (s : Shift) (assignedById : Nat) :
    Except Unit (AssignOutcome × DB) :=
  match ConstraintEngine.check db u s with
  | Except.error e => Except.error e
  | Except.ok result =>
    if result.ok = false then Except.ok (AssignOutcome.rejected result, db)
    else
      if db.assignments.any (fun a =>
          a.shiftId == s.id && a.userId == u.id && activeStatus a.status) then
        Except.error ()
      else
        let a : ShiftAssignment :=
          ⟨db.nextAssignmentId, s.id, u.id, AssignmentStatus.assigned, some assignedById⟩
        Except.ok (AssignOutcome.created a,
          { db with assignments := db.assignments ++ [a],
                    nextAssignmentId := db.nextAssignmentId + 1 })

-- ---------------------------------------------------------------------------
-- The no-double-booking invariant and an inductive strengthening
-- ---------------------------------------------------------------------------

/-- Two shifts whose UTC intervals `[start, end)` overlap. -/
def overlaps (s1 s2 : Shift) : Prop :=
  s1.startUtc < s2.endUtc ∧ s1.endUtc > s2.startUtc

instance (s1 s2 : Shift) : Decidable (overlaps s1 s2) := by
  unfold overlaps
  infer_instance

/-- The safety property of spec section 8: no worker holds two active
assignments whose shift intervals overlap, across all sites. -/
def noOverlappingActive (db : DB) : Prop :=
  ∀ a1 ∈ db.assignments, ∀ a2 ∈ db.assignments,
    a1.id ≠ a2.id → a1.userId = a2.userId →
    activeStatus a1.status = true → activeStatus a2.status = true →
    ∀ s1 ∈ db.shifts, ∀ s2 ∈ db.shifts,
      s1.id = a1.shiftId → s2.id = a2.shiftId → ¬ overlaps s1 s2

instance (db : DB) : Decidable (noOverlappingActive db) := by
  unfold noOverlappingActive
  infer_instance

/-- Primary keys are fresh and unique. -/
def WellFormedIds (db : DB) : Prop :=
  (∀ a ∈ db.assignments, a.id < db.nextAssignmentId) ∧
  db.assignments.Pairwise (fun a b => a.id ≠ b.id) ∧
  db.shifts.Pairwise (fun s t => s.id ≠ t.id) ∧
  db.swaps.Pairwise (fun r q => r.id ≠ q.id)

/-- Every pending swap/drop request is backed by an assignment currently in
SWAP_PENDING (requests are created only against ASSIGNED rows, which are
immediately moved to SWAP_PENDING). -/
def PendingBacked (db : DB) : Prop :=
  ∀ r ∈ db.swaps, r.is_pending = true →
    ∃ a ∈ db.assignments, a.id = r.assignmentId ∧ a.status = AssignmentStatus.swapPending

/-- At most one pending request per assignment (a request can be created only
against an ASSIGNED row, and creation makes the row SWAP_PENDING). -/
def OnePendingPerAssignment (db : DB) : Prop :=
  ∀ r ∈ db.swaps, ∀ q ∈ db.swaps, r.is_pending = true → q.is_pending = true →
    r.assignmentId = q.assignmentId → r.id = q.id

/-- The inductive invariant for the swap workflow. -/
def WorkflowInv (db : DB) : Prop :=
  WellFormedIds db ∧ PendingBacked db ∧ OnePendingPerAssignment db ∧ noOverlappingActive db

-- ---------------------------------------------------------------------------
-- Shape lemmas about the individual checks
-- ---------------------------------------------------------------------------

@[simp] theorem success_ok : ConstraintResult.success.ok = true := rfl

@[simp] theorem success_severity : ConstraintResult.success.severity = "ok" := rfl

@[simp] theorem mkWarning_ok (c m : String) (g : List Suggestion) :
    (ConstraintResult.mkWarning c m g).ok = true := rfl

@[simp] theorem mkWarning_severity (c m : String) (g : List Suggestion) :
    (ConstraintResult.mkWarning c m g).severity = "warning" := rfl

@[simp] theorem mkWarning_cid (c m : String) (g : List Suggestion) :
    (ConstraintResult.mkWarning c m g).constraintId = c := rfl

@[simp] theorem mkBlock_ok (c m : String) (g : List Suggestion) :
    (ConstraintResult.mkBlock c m g).ok = false := rfl

@[simp] theorem mkBlock_severity (c m : String) (g : List Suggestion) :
    (ConstraintResult.mkBlock c m g).severity = "block" := rfl

@[simp] theorem mkBlock_cid (c m : String) (g : List Suggestion) :
    (ConstraintResult.mkBlock c m g).constraintId = c := rfl

@[simp] theorem mkOverrideRequired_ok (c m : String) :
    (ConstraintResult.mkOverrideRequired c m).ok = false := rfl

@[simp] theorem mkOverrideRequired_severity (c m : String) :
    (ConstraintResult.mkOverrideRequired c m).severity = "override_required" := rfl

@[simp] theorem mkOverrideRequired_cid (c m : String) :
    (ConstraintResult.mkOverrideRequired c m).constraintId = c := rfl

/-- The skill check either passes or hard-blocks with id skill_mismatch. -/
theorem skill_match_cases (db : DB) (u : User) (s : Shift) :
    check_skill_match db u s = ConstraintResult.success ∨
    ∃ m g, check_skill_match db u s = ConstraintResult.mkBlock "skill_mismatch" m g := by
  unfold check_skill_match
  split
  · exact Or.inl rfl
  · exact Or.inr ⟨_, _, rfl⟩

/-- The certification check either passes or hard-blocks. -/
theorem location_certification_cases (db : DB) (u : User) (s : Shift) :
    check_location_certification db u s = ConstraintResult.success ∨
    ∃ m, check_location_certification db u s =
      ConstraintResult.mkBlock "location_certification" m [] := by
  unfold check_location_certification
  dsimp only
  split
  · exact Or.inl rfl
  · exact Or.inr ⟨_, rfl⟩

/-- The availability check raises, passes, or hard-blocks. -/
theorem availability_cases (db : DB) (u : User) (s : Shift) :
    check_availability db u s = Except.error () ∨
    check_availability db u s = Except.ok ConstraintResult.success ∨
    ∃ c m, check_availability db u s = Except.ok (ConstraintResult.mkBlock c m []) := by
  unfold check_availability check_time_window_covers_shift
  dsimp only
  repeat' split
  all_goals first
    | exact Or.inl rfl
    | exact Or.inr (Or.inl rfl)
    | exact Or.inr (Or.inr ⟨_, _, rfl⟩)

/-- The double-booking check passes exactly on an empty conflict query and
otherwise hard-blocks. -/
theorem double_booking_cases (db : DB) (u : User) (s : Shift) :
    (conflictingAssignment db u s = none ∧
      check_no_double_booking db u s = ConstraintResult.success) ∨
    (conflictingAssignment db u s ≠ none ∧
      ∃ m, check_no_double_booking db u s = ConstraintResult.mkBlock "double_booking" m []) := by
  cases h : conflictingAssignment db u s with
  | none =>
    refine Or.inl ⟨rfl, ?_⟩
    unfold check_no_double_booking
    rw [h]
  | some p =>
    have hb : check_no_double_booking db u s = ConstraintResult.mkBlock "double_booking"
        (u.fullName ++ " is already assigned to a shift at " ++ (db.location p.2).name ++
          " from " ++ fmtHM p.2.startUtc ++ " to " ++ fmtHM p.2.endUtc ++
          " UTC on that day, which overlaps with this shift.") [] := by
      unfold check_no_double_booking
      rw [h]
    exact Or.inr ⟨fun hc => Option.noConfusion hc, ⟨_, hb⟩⟩

/-- The minimum-rest check either passes or hard-blocks. -/
theorem minimum_rest_cases (db : DB) (u : User) (s : Shift) :
    check_minimum_rest db u s = ConstraintResult.success ∨
    ∃ c m, check_minimum_rest db u s = ConstraintResult.mkBlock c m [] := by
  unfold check_minimum_rest
  dsimp only
  repeat' split
  all_goals first
    | exact Or.inl rfl
    | exact Or.inr ⟨_, _, rfl⟩

/-- The daily-hours check passes, warns, or hard-blocks. -/
theorem daily_hours_cases (db : DB) (u : User) (s : Shift) :
    check_daily_hours db u s = ConstraintResult.success ∨
    (∃ m, check_daily_hours db u s = ConstraintResult.mkWarning "daily_hours_warning" m []) ∨
    ∃ m, check_daily_hours db u s = ConstraintResult.mkBlock "daily_hours_exceeded" m [] := by
  unfold check_daily_hours
  dsimp only
  repeat' split
  all_goals first
    | exact Or.inl rfl
    | exact Or.inr (Or.inl ⟨_, rfl⟩)
    | exact Or.inr (Or.inr ⟨_, rfl⟩)

/-- The weekly-hours check passes, warns, or hard-blocks. -/
theorem weekly_hours_cases (db : DB) (u : User) (s : Shift) :
    check_weekly_hours db u s = ConstraintResult.success ∨
    (∃ m, check_weekly_hours db u s = ConstraintResult.mkWarning "weekly_hours_warning" m []) ∨
    ∃ m, check_weekly_hours db u s = ConstraintResult.mkBlock "weekly_hours_exceeded" m [] := by
  unfold check_weekly_hours
  dsimp only
  repeat' split
  all_goals first
    | exact Or.inl rfl
    | exact Or.inr (Or.inl ⟨_, rfl⟩)
    | exact Or.inr (Or.inr ⟨_, rfl⟩)

/-- The consecutive-days check passes, warns, or requires an override. -/
theorem consecutive_days_cases (db : DB) (u : User) (s : Shift) :
    check_consecutive_days db u s = ConstraintResult.success ∨
    (∃ m, check_consecutive_days db u s = ConstraintResult.mkWarning "consecutive_days_6" m []) ∨
    ∃ m, check_consecutive_days db u s = ConstraintResult.mkOverrideRequired "consecutive_days_7" m := by
  unfold check_consecutive_days
  dsimp only
  repeat' split
  all_goals first
    | exact Or.inl rfl
    | exact Or.inr (Or.inl ⟨_, rfl⟩)
    | exact Or.inr (Or.inr ⟨_, rfl⟩)

-- ---------------------------------------------------------------------------
-- Engine loop lemmas
-- ---------------------------------------------------------------------------

/-- An ok result is skipped by the loop. -/
theorem engineLoop_cons_ok (c : ConstraintResult) (hc : c.severity = "ok")
    (rest : List (Except Unit ConstraintResult)) (ws : List ConstraintResult) :
    engineLoop (Except.ok c :: rest) ws = engineLoop rest ws := by
  simp [engineLoop, hc]

/-- A block or override_required result is returned immediately. -/
theorem engineLoop_cons_stop (c : ConstraintResult)
    (hc : c.severity = "block" ∨ c.severity = "override_required")
    (rest : List (Except Unit ConstraintResult)) (ws : List ConstraintResult) :
    engineLoop (Except.ok c :: rest) ws = Except.ok c := by
  rcases hc with hc | hc <;> simp [engineLoop, hc]

/-- A warning result is collected and the loop continues. -/
theorem engineLoop_cons_warn (c : ConstraintResult) (hc : c.severity = "warning")
    (rest : List (Except Unit ConstraintResult)) (ws : List ConstraintResult) :
    engineLoop (Except.ok c :: rest) ws = engineLoop rest (ws ++ [c]) := by
  simp [engineLoop, hc]

/-- A raised exception propagates out of the loop. -/
theorem engineLoop_cons_error (rest : List (Except Unit ConstraintResult))
    (ws : List ConstraintResult) :
    engineLoop (Except.error () :: rest) ws = Except.error () := by
  simp [engineLoop]

/-- A hard-block result can satisfy neither arm of an engine-pass hypothesis. -/
theorem blocked_not_pass (x : ConstraintResult) (c m : String) (g : List Suggestion)
    (hx : x = ConstraintResult.mkBlock c m g)
    (hr : x.ok = true ∨ x.severity = "override_required") : False := by
  subst hx
  simp at hr

/-- If the engine returns a result that is ok or override_required, the
double-booking query found no conflicting active assignment: every hard block
from checks 1-4, including double_booking, is returned directly with severity
block, and the loop never reaches a later check past such a block. -/
theorem engine_pass_no_conflict (db : DB) (u : User) (s : Shift) (r : ConstraintResult)
    (h : ConstraintEngine.check db u s = Except.ok r)
    (hr : r.ok = true ∨ r.severity = "override_required") :
    conflictingAssignment db u s = none := by
  unfold ConstraintEngine.check engineChecksList at h
  rcases skill_match_cases db u s with h1 | ⟨m1, g1, h1⟩
  · rw [h1, engineLoop_cons_ok _ success_severity] at h
    rcases location_certification_cases db u s with h2 | ⟨m2, h2⟩
    · rw [h2, engineLoop_cons_ok _ success_severity] at h
      rcases availability_cases db u s with h3 | h3 | ⟨c3, m3, h3⟩
      · rw [h3, engineLoop_cons_error] at h
        exact absurd h (by simp)
      · rw [h3, engineLoop_cons_ok _ success_severity] at h
        rcases double_booking_cases db u s with ⟨hnone, _⟩ | ⟨_, m4, h4⟩
        · exact hnone
        · rw [h4, engineLoop_cons_stop _ (Or.inl (mkBlock_severity _ _ _))] at h
          injection h with h
          exact absurd hr (by rw [← h]; simp)
      · rw [h3, engineLoop_cons_stop _ (Or.inl (mkBlock_severity _ _ _))] at h
        injection h with h
        exact absurd hr (by rw [← h]; simp)
    · rw [h2, engineLoop_cons_stop _ (Or.inl (mkBlock_severity _ _ _))] at h
      injection h with h
      exact absurd hr (by rw [← h]; simp)
  · rw [h1, engineLoop_cons_stop _ (Or.inl (mkBlock_severity _ _ _))] at h
    injection h with h
    exact absurd hr (by rw [← h]; simp)

/-- When checks 1-5 all pass, the engine outcome is the loop over checks 6-8
with an empty warning list. -/
theorem engine_tail_eq (db : DB) (u : User) (s : Shift)
    (h1 : check_skill_match db u s = ConstraintResult.success)
    (h2 : check_location_certification db u s = ConstraintResult.success)
    (h3 : check_availability db u s = Except.ok ConstraintResult.success)
    (h4 : check_no_double_booking db u s = ConstraintResult.success)
    (h5 : check_minimum_rest db u s = ConstraintResult.success) :
    ConstraintEngine.check db u s =
      engineLoop [Except.ok (check_daily_hours db u s),
        Except.ok (check_weekly_hours db u s),
        Except.ok (check_consecutive_days db u s)] [] := by
  unfold ConstraintEngine.check engineChecksList
  rw [h1, engineLoop_cons_ok _ success_severity, h2, engineLoop_cons_ok _ success_severity,
    h3, engineLoop_cons_ok _ success_severity, h4, engineLoop_cons_ok _ success_severity,
    h5, engineLoop_cons_ok _ success_severity]

-- ---------------------------------------------------------------------------
-- Supporting lookup lemmas
-- ---------------------------------------------------------------------------

/-- Finding by a unique id returns the member itself. -/
theorem find_by_id_of_mem {α : Type} (idf : α → Nat) (l : List α)
    (hids : l.Pairwise (fun a b => idf a ≠ idf b)) (x : α) (hx : x ∈ l) :
    l.find? (fun y => idf y == idf x) = some x := by
  induction l with
  | nil => cases hx
  | cons hd tl ih =>
    rcases List.pairwise_cons.mp hids with ⟨hhd, htl⟩
    rcases List.mem_cons.mp hx with rfl | hx2
    · simp [List.find?]
    · have hne : idf hd ≠ idf x := hhd x hx2
      rw [List.find?_cons_of_neg _ (by simpa using hne)]
      exact ih htl hx2

/-- Membership in the active-assignments-with-shifts join. -/
theorem mem_activeWithShifts (db : DB) (uid : Nat) (p : ShiftAssignment × Shift) :
    p ∈ activeWithShifts db uid ↔
      p.1 ∈ db.assignments ∧ p.1.userId = uid ∧ activeStatus p.1.status = true ∧
        db.findShift p.1.shiftId = some p.2 := by
  unfold activeWithShifts
  rw [List.mem_filterMap]
  constructor
  · rintro ⟨a, ha, hfa⟩
    by_cases hc : (a.userId == uid && activeStatus a.status) = true
    · rw [if_pos hc] at hfa
      rcases Option.map_eq_some'.mp hfa with ⟨sh, hsh, hpair⟩
      cases hpair
      have hc2 : (a.userId == uid) = true ∧ activeStatus a.status = true := by
        simpa using hc
      exact ⟨ha, by simpa using hc2.1, hc2.2, hsh⟩
    · rw [if_neg hc] at hfa
      cases hfa
  · rintro ⟨ha, hu, hs, hf⟩
    refine ⟨p.1, ha, ?_⟩
    rw [if_pos (by simp [hu, hs]), hf]
    simp

-- ---------------------------------------------------------------------------
-- Concrete scenario data (shared helpers)
-- ---------------------------------------------------------------------------

/-- America/New_York during the scenario dates (EDT, UTC-4). -/
def nyTz : Tz :=
  ⟨"America/New_York", fun _ => -240, fun _ => -240⟩

/-- America/Los_Angeles during the scenario dates (PDT, UTC-7). -/
def laTz : Tz :=
  ⟨"America/Los_Angeles", fun _ => -420, fun _ => -420⟩

/-- The scenario skill. -/
def skillBar : Skill :=
  ⟨1, "Bartender"⟩

/-- A UTC-timezone site. -/
def locMain : Location :=
  ⟨1, "Main Bar", utcTz⟩

/-- An America/New_York site. -/
def locEast : Location :=
  ⟨2, "East Bar", nyTz⟩

/-- The scenario worker: active staff member with the required skill. -/
def alice : User :=
  ⟨1, "Alice Example", Role.staff, true, [1]⟩

/-- A weekly availability window. -/
def weeklyAvail (uid : Nat) (dow st en : Int) (tz : Tz) : StaffAvailability :=
  ⟨uid, Recurrence.weekly, some dow, none, some st, some en, tz, ""⟩

/-- A weekly entry marking the whole day unavailable (null times). -/
def weeklyUnavail (uid : Nat) (dow : Int) : StaffAvailability :=
  ⟨uid, Recurrence.weekly, some dow, none, none, none, utcTz, ""⟩

/-- A published shift requiring skill 1 with headcount 1. -/
def mkShift (i loc : Nat) (st en : Int) : Shift :=
  ⟨i, loc, 1, 1, st, en, true⟩

/-- An ASSIGNED assignment made by manager 9. -/
def mkAsg (i shiftId uid : Nat) : ShiftAssignment :=
  ⟨i, shiftId, uid, AssignmentStatus.assigned, some 9⟩

/-- A database with both sites, the skill, Alice with certifications, and the
given shifts, assignments, and availability entries. -/
def baseDB (shifts : List Shift) (asgs : List ShiftAssignment)
    (avails : List StaffAvailability) (nextId : Nat) : DB :=
  ⟨[locMain, locEast], [skillBar], [alice], [⟨1, 1, true⟩, ⟨1, 2, true⟩],
   avails, shifts, asgs, [], [], nextId⟩

-- ---------------------------------------------------------------------------
-- C3: weekly unavailable-day entry raises instead of returning a typed block
-- ---------------------------------------------------------------------------

/-- Monday 09:00-17:00 UTC shift at the UTC site. -/
def sC3 : Shift :=
  mkShift 1 1 540 1020

/-- Worker whose Monday weekly entry has null times (fully unavailable) and
who has no one-off entry for the date. -/
def dbC3 : DB :=
  baseDB [sC3] [] [weeklyUnavail 1 0] 1

/-- Claim C3: a weekly entry marked fully unavailable (null start and end
times), with no one-off entry for the date, should produce a typed block
distinct from availability_no_window; the code instead evaluates
`days[shift_weekday]` where `days` is bound only in the no-entry branch
(constraints.py line 242 versus line 230), raising NameError. The model
evaluates the check at that state to the reified exception. -/
theorem c3_weekly_unavailable_raises :
    check_availability dbC3 alice sC3 = Except.error () := by
  rfl

-- ---------------------------------------------------------------------------
-- C6: double-booking blocks exactly on an overlapping other active assignment
-- ---------------------------------------------------------------------------

/-- Claim C6: the double-booking check blocks if and only if some other
active (ASSIGNED or SWAP_PENDING) assignment of the worker, at any site, has
a shift whose interval overlaps the candidate's [start, end) half-open
interval; the strict inequalities mean adjacency (an existing shift ending
exactly at the candidate's start, or starting exactly at its end) never
satisfies the right-hand side and so never blocks. -/
theorem c6_double_booking_iff (db : DB) (u : User) (s : Shift)
    (hids : db.shifts.Pairwise (fun a b => a.id ≠ b.id)) :
    (check_no_double_booking db u s).ok = false ↔
      ∃ a ∈ db.assignments, a.userId = u.id ∧ activeStatus a.status = true ∧
        ∃ sh ∈ db.shifts, sh.id = a.shiftId ∧ sh.id ≠ s.id ∧
          sh.startUtc < s.endUtc ∧ sh.endUtc > s.startUtc := by
  constructor
  · intro hok
    rcases double_booking_cases db u s with ⟨_, hsucc⟩ | ⟨hsome, m, hblock⟩
    · rw [hsucc] at hok
      simp at hok
    · rcases Option.ne_none_iff_exists'.mp hsome with ⟨p, hp⟩
      have hmem := List.mem_of_find?_eq_some hp
      have hcond := List.find?_some hp
      rcases (mem_activeWithShifts db u.id p).mp hmem with ⟨ha, hu, hact, hf⟩
      have hshmem : p.2 ∈ db.shifts := List.mem_of_find?_eq_some hf
      have hshid : p.2.id = p.1.shiftId := by
        have := List.find?_some hf
        simpa using this
      simp only [Bool.and_eq_true, decide_eq_true_eq] at hcond
      exact ⟨p.1, ha, hu, hact, p.2, hshmem, hshid, hcond.2, hcond.1.1, hcond.1.2⟩
  · rintro ⟨a, ha, hu, hact, sh, hshmem, hshid, hne, hov1, hov2⟩
    rcases double_booking_cases db u s with ⟨hnone, _⟩ | ⟨_, m, hblock⟩
    · exfalso
      have hfind : db.findShift a.shiftId = some sh := by
        unfold DB.findShift
        have hgen := find_by_id_of_mem Shift.id db.shifts hids sh hshmem
        rw [← hshid]
        exact hgen
      have hpmem : (a, sh) ∈ activeWithShifts db u.id :=
        (mem_activeWithShifts db u.id (a, sh)).mpr ⟨ha, hu, hact, hfind⟩
      have hfalse := List.find?_eq_none.mp hnone (a, sh) hpmem
      apply hfalse
      simp [hov1, hov2, hne]
    · rw [hblock]
      simp

/-- A database Alice can be double-booked against: one Monday assignment. -/
def dbC6 : DB :=
  baseDB [mkShift 1 1 540 1020, mkShift 2 1 1020 1500] [mkAsg 1 1 1] [] 2

/-- Witness for C6 at a concrete state: an adjacent shift (starting exactly
when the existing one ends) does not block. -/
theorem c6_witness :
    (check_no_double_booking dbC6 alice (mkShift 2 1 1020 1500)).ok = false ↔
      ∃ a ∈ dbC6.assignments, a.userId = alice.id ∧ activeStatus a.status = true ∧
        ∃ sh ∈ dbC6.shifts, sh.id = a.shiftId ∧ sh.id ≠ (mkShift 2 1 1020 1500).id ∧
          sh.startUtc < (mkShift 2 1 1020 1500).endUtc ∧
          sh.endUtc > (mkShift 2 1 1020 1500).startUtc :=
  c6_double_booking_iff dbC6 alice (mkShift 2 1 1020 1500) (by decide)

-- ---------------------------------------------------------------------------
-- C7: weekly hours, overtime-trap scenario and thresholds
-- ---------------------------------------------------------------------------

/-- Monday-Friday shifts of 7.6 hours each (09:00-16:36 UTC at the UTC site). -/
def shiftsC7 : List Shift :=
  [mkShift 1 1 540 996, mkShift 2 1 1980 2436, mkShift 3 1 3420 3876,
   mkShift 4 1 4860 5316, mkShift 5 1 6300 6756]

/-- Alice assigned to all five weekday shifts. -/
def dbC7 : DB :=
  baseDB shiftsC7 [mkAsg 1 1 1, mkAsg 2 2 1, mkAsg 3 3 1, mkAsg 4 4 1, mkAsg 5 5 1] [] 6

/-- The proposed 6-hour Saturday shift (10:00-16:00 UTC) in the same week. -/
def sC7 : Shift :=
  mkShift 10 1 7800 8160

/-- A 1-hour Saturday shift: projected 39 hours, in the warning band. -/
def sC7warn : Shift :=
  mkShift 11 1 7800 7860

/-- Claim C7: with five 7.6-hour Monday-Friday assignments (38.0 hours) in
the site-local ISO week, a 6-hour Saturday proposal blocks with rule id
weekly_hours_exceeded and the reason text contains "38" as the current
total; in general the check blocks at or above 40 projected hours and warns
at or above 35 (below 40) in the site-local Monday-Sunday week. -/
theorem c7_weekly_hours :
    ((check_weekly_hours dbC7 alice sC7).severity = "block" ∧
     (check_weekly_hours dbC7 alice sC7).constraintId = "weekly_hours_exceeded" ∧
     (check_weekly_hours dbC7 alice sC7).ok = false ∧
     currentWeekMinutes dbC7 alice sC7 = 38 * 60 ∧
     (∃ x y, (check_weekly_hours dbC7 alice sC7).reason = x ++ "38" ++ y)) ∧
    (∀ db u s, SHIFTSYNC.WEEKLY_HOURS_HARD_LIMIT * 60 ≤ currentWeekMinutes db u s + s.duration_minutes →
      (check_weekly_hours db u s).severity = "block" ∧
      (check_weekly_hours db u s).constraintId = "weekly_hours_exceeded" ∧
      (check_weekly_hours db u s).ok = false) ∧
    (∀ db u s, SHIFTSYNC.WEEKLY_HOURS_WARNING * 60 ≤ currentWeekMinutes db u s + s.duration_minutes →
      currentWeekMinutes db u s + s.duration_minutes < SHIFTSYNC.WEEKLY_HOURS_HARD_LIMIT * 60 →
      (check_weekly_hours db u s).severity = "warning" ∧
      (check_weekly_hours db u s).constraintId = "weekly_hours_warning" ∧
      (check_weekly_hours db u s).ok = true) := by
  refine ⟨⟨by rfl, by rfl, by rfl, by rfl, ?_⟩, ?_, ?_⟩
  · exact ⟨"Alice Example already has ",
      ".0 hours this week. Adding this 6.0h shift would bring the total to 44.0 hours, exceeding the 40-hour limit.",
      by rfl⟩
  · intro db u s h
    unfold check_weekly_hours
    dsimp only
    rw [if_pos h]
    exact ⟨rfl, rfl, rfl⟩
  · intro db u s h1 h2
    unfold check_weekly_hours
    dsimp only
    rw [if_neg (not_le.mpr h2), if_pos h1]
    exact ⟨rfl, rfl, rfl⟩

/-- Witness for the threshold parts of C7: the 44-hour projection blocks and
the 39-hour projection warns at the concrete scenario database. -/
theorem c7_witness :
    ((check_weekly_hours dbC7 alice sC7).severity = "block" ∧
     (check_weekly_hours dbC7 alice sC7).constraintId = "weekly_hours_exceeded" ∧
     (check_weekly_hours dbC7 alice sC7).ok = false) ∧
    ((check_weekly_hours dbC7 alice sC7warn).severity = "warning" ∧
     (check_weekly_hours dbC7 alice sC7warn).constraintId = "weekly_hours_warning" ∧
     (check_weekly_hours dbC7 alice sC7warn).ok = true) :=
  ⟨c7_weekly_hours.2.1 dbC7 alice sC7 (by decide),
   c7_weekly_hours.2.2 dbC7 alice sC7warn (by decide) (by decide)⟩

-- ---------------------------------------------------------------------------
-- C5: availability window semantics and the timezone-mismatch scenario
-- ---------------------------------------------------------------------------

/-- Spec section 4.1, stated from the spec text: the availability entry that
governs a shift is the one-off entry for the site-local date when present,
else the weekly entry for the site-local weekday. -/
def specGoverningEntry (db : DB) (u : User) (s : Shift) : Option StaffAvailability :=
  let local_tz := (db.location s).tz
  let shift_date := localDate local_tz s.startUtc
  let shift_weekday := localWeekday local_tz s.startUtc
  match db.availabilities.find? (fun a =>
    decide (a.userId = u.id) && a.recurrence == Recurrence.oneOff &&
    a.specificDate == some shift_date) with
  | some e => some e
  | none =>
    db.availabilities.find? (fun a =>
      decide (a.userId = u.id) && a.recurrence == Recurrence.weekly &&
      a.dayOfWeek == some shift_weekday)

/-- Spec section 4.1, stated from the spec text: the governing window,
anchored to the shift site-local calendar date and interpreted in the entry
own stored timezone, fully contains the shift UTC interval after conversion
to UTC. -/
def specWindowCovers (db : DB) (e : StaffAvailability) (st en : Int) (s : Shift) : Prop :=
  combineToUtc e.tz (localDate (db.location s).tz s.startUtc) st ≤ s.startUtc ∧
  s.endUtc ≤ combineToUtc e.tz (localDate (db.location s).tz s.startUtc) en

/-- The window-containment helper passes exactly on spec containment. -/
theorem window_check_iff (db : DB) (u : User) (e : StaffAvailability) (s : Shift)
    (wt : String) (st en : Int) (hst : e.startTime = some st) (hen : e.endTime = some en) :
    check_time_window_covers_shift db u e s wt = Except.ok ConstraintResult.success ↔
      specWindowCovers db e st en s := by
  unfold check_time_window_covers_shift
  rw [hst, hen]
  dsimp only
  constructor
  · intro h
    by_cases hc : combineToUtc e.tz (localDate (db.location s).tz s.startUtc) st ≤ s.startUtc ∧
        combineToUtc e.tz (localDate (db.location s).tz s.startUtc) en ≥ s.endUtc
    · exact ⟨hc.1, hc.2⟩
    · rw [if_neg hc] at h
      have := congrArg (fun x => okOf x) h
      simp [okOf] at this
  · intro h
    rw [if_pos ⟨h.1, h.2⟩]

/-- With a timed entry, is_unavailable_day is false. -/
theorem not_unavailable_of_timed (e : StaffAvailability) (st : Int)
    (hst : e.startTime = some st) : e.is_unavailable_day = false := by
  unfold StaffAvailability.is_unavailable_day
  rw [hst]
  rfl

/-- New York site with a Monday 09:00-13:00 Eastern shift (13:00-17:00 UTC). -/
def sC5 : Shift :=
  mkShift 1 2 780 1020

/-- Alice whose only availability is weekly Monday 09:00-17:00 Pacific. -/
def dbC5 : DB :=
  baseDB [sC5] [] [weeklyAvail 1 0 540 1020 laTz] 1

/-- Claim C5: the availability check passes exactly when the governing entry
window - anchored to the shift site-local date, interpreted in the entry own
stored timezone - contains the shift UTC interval after conversion; and the
Los Angeles weekly window 09:00-17:00 against the Monday 09:00-13:00 New York
shift fails with the window-mismatch rule id. -/
theorem c5_availability_window :
    (∀ db u s e st en, specGoverningEntry db u s = some e →
      e.startTime = some st → e.endTime = some en →
      (check_availability db u s = Except.ok ConstraintResult.success ↔
        specWindowCovers db e st en s)) ∧
    cidOf (check_availability dbC5 alice sC5) = "availability_window_mismatch" ∧
    sevOf (check_availability dbC5 alice sC5) = "block" ∧
    okOf (check_availability dbC5 alice sC5) = false := by
  refine ⟨?_, by rfl, by rfl, by rfl⟩
  intro db u s e st en hg hst hen
  unfold specGoverningEntry at hg
  unfold check_availability
  dsimp only at hg ⊢
  cases hoo : db.availabilities.find? (fun a =>
      decide (a.userId = u.id) && a.recurrence == Recurrence.oneOff &&
      a.specificDate == some (localDate (db.location s).tz s.startUtc)) with
  | some oo =>
    rw [hoo] at hg
    injection hg with hg
    subst hg
    change (if oo.is_unavailable_day = true then _ else _) = _ ↔ _
    rw [if_neg (by rw [not_unavailable_of_timed oo st hst]; simp)]
    exact window_check_iff db u oo s "one-off availability" st en hst hen
  | none =>
    rw [hoo] at hg
    cases hw : db.availabilities.find? (fun a =>
        decide (a.userId = u.id) && a.recurrence == Recurrence.weekly &&
        a.dayOfWeek == some (localWeekday (db.location s).tz s.startUtc)) with
    | some w =>
      rw [hw] at hg
      injection hg with hg
      subst hg
      change (if w.is_unavailable_day = true then _ else _) = _ ↔ _
      rw [if_neg (by rw [not_unavailable_of_timed w st hst]; simp)]
      exact window_check_iff db u w s "weekly availability" st en hst hen
    | none =>
      rw [hw] at hg
      cases hg

/-- Witness for C5: the governing entry at the scenario state is the Pacific
weekly window, and the iff instance holds there. -/
theorem c5_witness :
    check_availability dbC5 alice sC5 = Except.ok ConstraintResult.success ↔
      specWindowCovers dbC5 (weeklyAvail 1 0 540 1020 laTz) 540 1020 sC5 :=
  c5_availability_window.1 dbC5 alice sC5 (weeklyAvail 1 0 540 1020 laTz) 540 1020
    (by rfl) (by rfl) (by rfl)

-- ---------------------------------------------------------------------------
-- C2: ordering of checks 6-8 inside ConstraintEngine.check
-- ---------------------------------------------------------------------------

/-- Monday-Thursday 8-hour assignments (32 hours) for Alice, with open
Saturday availability. -/
def dbC2 : DB :=
  baseDB
    [mkShift 1 1 540 1020, mkShift 2 1 1980 2460, mkShift 3 1 3420 3900,
     mkShift 4 1 4860 5340]
    [mkAsg 1 1 1, mkAsg 2 2 1, mkAsg 3 3 1, mkAsg 4 4 1]
    [weeklyAvail 1 5 0 1439 utcTz] 5

/-- A 9-hour Saturday shift: 9 hours on the day (daily warning band) and 41
projected weekly hours (weekly block band). -/
def sC2 : Shift :=
  mkShift 10 1 7680 8220

/-- Claim C2 counterexample: checks 1-5 all pass, check 6 yields a warning
and check 7 yields a block, yet ConstraintEngine.check returns the check-7
block (weekly_hours_exceeded), not the check-6 warning the claim predicts. -/
theorem c2_counterexample :
    check_skill_match dbC2 alice sC2 = ConstraintResult.success ∧
    check_location_certification dbC2 alice sC2 = ConstraintResult.success ∧
    check_availability dbC2 alice sC2 = Except.ok ConstraintResult.success ∧
    check_no_double_booking dbC2 alice sC2 = ConstraintResult.success ∧
    check_minimum_rest dbC2 alice sC2 = ConstraintResult.success ∧
    (check_daily_hours dbC2 alice sC2).severity = "warning" ∧
    (check_weekly_hours dbC2 alice sC2).severity = "block" ∧
    sevOf (ConstraintEngine.check dbC2 alice sC2) = "block" ∧
    cidOf (ConstraintEngine.check dbC2 alice sC2) = "weekly_hours_exceeded" :=
  ⟨rfl, rfl, rfl, rfl, rfl, rfl, rfl, rfl, rfl⟩

/-- Claim C2 as amended: when checks 1-5 all pass, a block or
override_required from checks 6-8 is returned immediately in pipeline order
(later checks are not consulted), and the first collected warning among 6-8
is returned only when none of them blocks; so a check-6 warning together
with a check-7 block yields the check-7 block. -/
theorem c2_engine_tail_order (db : DB) (u : User) (s : Shift)
    (h1 : check_skill_match db u s = ConstraintResult.success)
    (h2 : check_location_certification db u s = ConstraintResult.success)
    (h3 : check_availability db u s = Except.ok ConstraintResult.success)
    (h4 : check_no_double_booking db u s = ConstraintResult.success)
    (h5 : check_minimum_rest db u s = ConstraintResult.success) :
    ConstraintEngine.check db u s = Except.ok (
      if (check_daily_hours db u s).severity = "block" ∨
          (check_daily_hours db u s).severity = "override_required" then
        check_daily_hours db u s
      else if (check_weekly_hours db u s).severity = "block" ∨
          (check_weekly_hours db u s).severity = "override_required" then
        check_weekly_hours db u s
      else if (check_consecutive_days db u s).severity = "block" ∨
          (check_consecutive_days db u s).severity = "override_required" then
        check_consecutive_days db u s
      else
        (([check_daily_hours db u s, check_weekly_hours db u s,
           check_consecutive_days db u s].filter
            (fun x => x.severity == "warning")).headD ConstraintResult.success)) := by
  rw [engine_tail_eq db u s h1 h2 h3 h4 h5]
  rcases daily_hours_cases db u s with hd | ⟨md, hd⟩ | ⟨md, hd⟩ <;>
    rcases weekly_hours_cases db u s with hw | ⟨mw, hw⟩ | ⟨mw, hw⟩ <;>
    rcases consecutive_days_cases db u s with hc | ⟨mc, hc⟩ | ⟨mc, hc⟩ <;>
    rw [hd, hw, hc] <;>
    simp [engineLoop]

/-- Witness for C2 as amended, at the counterexample state: the engine
outcome is the nested-conditional tail result. -/
theorem c2_witness :
    ConstraintEngine.check dbC2 alice sC2 = Except.ok (
      if (check_daily_hours dbC2 alice sC2).severity = "block" ∨
          (check_daily_hours dbC2 alice sC2).severity = "override_required" then
        check_daily_hours dbC2 alice sC2
      else if (check_weekly_hours dbC2 alice sC2).severity = "block" ∨
          (check_weekly_hours dbC2 alice sC2).severity = "override_required" then
        check_weekly_hours dbC2 alice sC2
      else if (check_consecutive_days dbC2 alice sC2).severity = "block" ∨
          (check_consecutive_days dbC2 alice sC2).severity = "override_required" then
        check_consecutive_days dbC2 alice sC2
      else
        (([check_daily_hours dbC2 alice sC2, check_weekly_hours dbC2 alice sC2,
           check_consecutive_days dbC2 alice sC2].filter
            (fun x => x.severity == "warning")).headD ConstraintResult.success)) :=
  c2_engine_tail_order dbC2 alice sC2 rfl rfl rfl rfl rfl

-- ---------------------------------------------------------------------------
-- C10: the ok flag matches the severity on every produced result
-- ---------------------------------------------------------------------------

/-- The coupling claim C10 states: ok is true exactly on severity ok or
warning, and false exactly on severity block or override_required. -/
def severityConsistent (r : ConstraintResult) : Prop :=
  (r.ok = true ∧ (r.severity = "ok" ∨ r.severity = "warning")) ∨
  (r.ok = false ∧ (r.severity = "block" ∨ r.severity = "override_required"))

theorem severityConsistent_success : severityConsistent ConstraintResult.success :=
  Or.inl ⟨rfl, Or.inl rfl⟩

theorem severityConsistent_mkWarning (c m : String) (g : List Suggestion) :
    severityConsistent (ConstraintResult.mkWarning c m g) :=
  Or.inl ⟨rfl, Or.inr rfl⟩

theorem severityConsistent_mkBlock (c m : String) (g : List Suggestion) :
    severityConsistent (ConstraintResult.mkBlock c m g) :=
  Or.inr ⟨rfl, Or.inl rfl⟩

theorem severityConsistent_mkOverrideRequired (c m : String) :
    severityConsistent (ConstraintResult.mkOverrideRequired c m) :=
  Or.inr ⟨rfl, Or.inr rfl⟩

/-- Every individual check emits results built by the four constructors. -/
theorem checks_severityConsistent (db : DB) (u : User) (s : Shift) :
    severityConsistent (check_skill_match db u s) ∧
    severityConsistent (check_location_certification db u s) ∧
    (∀ x, check_availability db u s = Except.ok x → severityConsistent x) ∧
    severityConsistent (check_no_double_booking db u s) ∧
    severityConsistent (check_minimum_rest db u s) ∧
    severityConsistent (check_daily_hours db u s) ∧
    severityConsistent (check_weekly_hours db u s) ∧
    severityConsistent (check_consecutive_days db u s) := by
  refine ⟨?_, ?_, ?_, ?_, ?_, ?_, ?_, ?_⟩
  · rcases skill_match_cases db u s with h | ⟨m, g, h⟩ <;> rw [h]
    · exact severityConsistent_success
    · exact severityConsistent_mkBlock _ _ _
  · rcases location_certification_cases db u s with h | ⟨m, h⟩ <;> rw [h]
    · exact severityConsistent_success
    · exact severityConsistent_mkBlock _ _ _
  · intro x hx
    rcases availability_cases db u s with h | h | ⟨c, m, h⟩ <;> rw [h] at hx
    · cases hx
    · injection hx with hx
      rw [← hx]
      exact severityConsistent_success
    · injection hx with hx
      rw [← hx]
      exact severityConsistent_mkBlock _ _ _
  · rcases double_booking_cases db u s with ⟨_, h⟩ | ⟨_, m, h⟩ <;> rw [h]
    · exact severityConsistent_success
    · exact severityConsistent_mkBlock _ _ _
  · rcases minimum_rest_cases db u s with h | ⟨c, m, h⟩ <;> rw [h]
    · exact severityConsistent_success
    · exact severityConsistent_mkBlock _ _ _
  · rcases daily_hours_cases db u s with h | ⟨m, h⟩ | ⟨m, h⟩ <;> rw [h]
    · exact severityConsistent_success
    · exact severityConsistent_mkWarning _ _ _
    · exact severityConsistent_mkBlock _ _ _
  · rcases weekly_hours_cases db u s with h | ⟨m, h⟩ | ⟨m, h⟩ <;> rw [h]
    · exact severityConsistent_success
    · exact severityConsistent_mkWarning _ _ _
    · exact severityConsistent_mkBlock _ _ _
  · rcases consecutive_days_cases db u s with h | ⟨m, h⟩ | ⟨m, h⟩ <;> rw [h]
    · exact severityConsistent_success
    · exact severityConsistent_mkWarning _ _ _
    · exact severityConsistent_mkOverrideRequired _ _

/-- The engine loop only emits results of its inputs (or success). -/
theorem engineLoop_consistent : ∀ (cs : List (Except Unit ConstraintResult))
    (ws : List ConstraintResult),
    (∀ c ∈ cs, ∀ x, c = Except.ok x → severityConsistent x) →
    (∀ w ∈ ws, severityConsistent w) → ∀ (r : ConstraintResult),
    engineLoop cs ws = Except.ok r → severityConsistent r := by
  intro cs
  induction cs with
  | nil =>
    intro ws _ hws r h
    cases ws with
    | nil =>
      simp [engineLoop] at h
      rw [← h]
      exact severityConsistent_success
    | cons w rest =>
      simp [engineLoop] at h
      rw [← h]
      exact hws w (List.mem_cons_self _ _)
  | cons c rest ih =>
    intro ws hcs hws r h
    cases c with
    | error e =>
      rw [engineLoop_cons_error] at h
      cases h
    | ok x =>
      have hx : severityConsistent x := hcs (Except.ok x) (List.mem_cons_self _ _) x rfl
      by_cases hok : x.severity = "ok"
      · rw [engineLoop_cons_ok x hok] at h
        exact ih ws (fun c hc => hcs c (List.mem_cons_of_mem _ hc)) hws r h
      · by_cases hstop : x.severity = "block" ∨ x.severity = "override_required"
        · rw [engineLoop_cons_stop x hstop] at h
          injection h with h
          rw [← h]
          exact hx
        · have hw : x.severity = "warning" := by
            rcases hx with ⟨_, h1 | h1⟩ | ⟨_, h1 | h1⟩
            · exact absurd h1 hok
            · exact h1
            · exact absurd (Or.inl h1) hstop
            · exact absurd (Or.inr h1) hstop
          rw [engineLoop_cons_warn x hw] at h
          refine ih (ws ++ [x]) (fun c hc => hcs c (List.mem_cons_of_mem _ hc)) ?_ r h
          intro w hwmem
          rcases List.mem_append.mp hwmem with hmem | hmem
          · exact hws w hmem
          · have hwx : w = x := by simpa using hmem
            rw [hwx]
            exact hx

/-- The pipeline input list satisfies the loop precondition. -/
theorem engineChecksList_consistent (db : DB) (u : User) (s : Shift) :
    ∀ c ∈ engineChecksList db u s, ∀ x, c = Except.ok x → severityConsistent x := by
  intro c hc x hcx
  obtain ⟨k1, k2, k3, k4, k5, k6, k7, k8⟩ := checks_severityConsistent db u s
  unfold engineChecksList at hc
  simp only [List.mem_cons, List.not_mem_nil, or_false] at hc
  rcases hc with rfl | rfl | rfl | rfl | rfl | rfl | rfl | rfl
  · injection hcx with hcx; rw [← hcx]; exact k1
  · injection hcx with hcx; rw [← hcx]; exact k2
  · exact k3 x hcx
  · injection hcx with hcx; rw [← hcx]; exact k4
  · injection hcx with hcx; rw [← hcx]; exact k5
  · injection hcx with hcx; rw [← hcx]; exact k6
  · injection hcx with hcx; rw [← hcx]; exact k7
  · injection hcx with hcx; rw [← hcx]; exact k8

/-- The check_all accumulator only emits results of its inputs. -/
theorem checkAll_go_consistent : ∀ (cs : List (Except Unit ConstraintResult)),
    (∀ c ∈ cs, ∀ x, c = Except.ok x → severityConsistent x) →
    ∀ (l : List ConstraintResult), ConstraintEngine.check_all.go cs = Except.ok l →
    ∀ r ∈ l, severityConsistent r := by
  intro cs
  induction cs with
  | nil =>
    intro _ l h
    simp [ConstraintEngine.check_all.go] at h
    subst h
    intro r hr
    cases hr
  | cons c rest ih =>
    intro hcs l h
    cases c with
    | error e =>
      simp [ConstraintEngine.check_all.go] at h
    | ok x =>
      have hx : severityConsistent x := hcs (Except.ok x) (List.mem_cons_self _ _) x rfl
      unfold ConstraintEngine.check_all.go at h
      cases hgo : ConstraintEngine.check_all.go rest with
      | error e => rw [hgo] at h; cases h
      | ok l2 =>
        rw [hgo] at h
        injection h with h
        have hl2 := ih (fun c hc => hcs c (List.mem_cons_of_mem _ hc)) l2 hgo
        intro r hr
        rw [← h] at hr
        by_cases hsev : x.severity ≠ "ok"
        · rw [if_pos hsev] at hr
          rcases List.mem_cons.mp hr with rfl | hr2
          · exact hx
          · exact hl2 r hr2
        · rw [if_neg hsev] at hr
          exact hl2 r hr

/-- Claim C10: every result produced by any pipeline check, by
ConstraintEngine.check, or by ConstraintEngine.check_all has its ok flag
true exactly on severity ok or warning and false exactly on severity block
or override_required; consequently ShiftAssignmentService.assign returns a
structured rejection only for a block or override_required result - a
warning alone never causes rejection. -/
theorem c10_ok_severity_coupling :
    (∀ db u s, severityConsistent (check_skill_match db u s) ∧
      severityConsistent (check_location_certification db u s) ∧
      (∀ x, check_availability db u s = Except.ok x → severityConsistent x) ∧
      severityConsistent (check_no_double_booking db u s) ∧
      severityConsistent (check_minimum_rest db u s) ∧
      severityConsistent (check_daily_hours db u s) ∧
      severityConsistent (check_weekly_hours db u s) ∧
      severityConsistent (check_consecutive_days db u s)) ∧
    (∀ db u s r, ConstraintEngine.check db u s = Except.ok r → severityConsistent r) ∧
    (∀ db u s l, ConstraintEngine.check_all db u s = Except.ok l →
      ∀ r ∈ l, severityConsistent r) ∧
    (∀ db u s b out db2,
      ShiftAssignmentService.assign db u s b = Except.ok (AssignOutcome.rejected out, db2) →
      out.ok = false ∧ (out.severity = "block" ∨ out.severity = "override_required")) := by
  refine ⟨checks_severityConsistent, ?_, ?_, ?_⟩
  · intro db u s r h
    exact engineLoop_consistent _ [] (engineChecksList_consistent db u s) (by simp) r h
  · intro db u s l h
    exact checkAll_go_consistent _ (engineChecksList_consistent db u s) l h
  · intro db u s b out db2 h
    unfold ShiftAssignmentService.assign at h
    cases hc : ConstraintEngine.check db u s with
    | error e =>
      rw [hc] at h
      cases h
    | ok result =>
      simp only [hc] at h
      have hcons : severityConsistent result :=
        engineLoop_consistent _ [] (engineChecksList_consistent db u s) (by simp) result hc
      by_cases hok : result.ok = false
      · rw [if_pos hok] at h
        injection h with h
        have hout : out = result := by
          have hfst := congrArg Prod.fst h
          simpa using hfst.symm
        rw [hout]
        rcases hcons with ⟨h1, _⟩ | ⟨h1, h2⟩
        · rw [h1] at hok
          cases hok
        · exact ⟨h1, h2⟩
      · rw [if_neg hok] at h
        by_cases hdup : (db.assignments.any (fun a =>
            a.shiftId == s.id && a.userId == u.id && activeStatus a.status)) = true
        · rw [if_pos hdup] at h
          cases h
        · rw [if_neg hdup] at h
          simp at h

/-- The engine result at the C5 scenario (an availability hard block). -/
def rC10 : ConstraintResult :=
  match ConstraintEngine.check dbC5 alice sC5 with
  | Except.ok r => r
  | Except.error _ => ConstraintResult.success

/-- Witness for C10: the coupling at a concrete weekly-hours block, and a
concrete service rejection carrying a block result. -/
theorem c10_witness :
    severityConsistent (check_weekly_hours dbC7 alice sC7) ∧
    (rC10.ok = false ∧ (rC10.severity = "block" ∨ rC10.severity = "override_required")) :=
  ⟨(c10_ok_severity_coupling.1 dbC7 alice sC7).2.2.2.2.2.2.1,
   c10_ok_severity_coupling.2.2.2 dbC5 alice sC5 9 rC10 dbC5 rfl⟩

-- ---------------------------------------------------------------------------
-- C9: the expiry sweep is idempotent
-- ---------------------------------------------------------------------------

/-- A request just processed by the drop sweep no longer matches it. -/
theorem dropUpd_no_recond (now : Int) (r : SwapRequest) :
    dropExpireCond now
      (if dropExpireCond now r then { r with status := SwapStatus.expired } else r) = false := by
  by_cases h : dropExpireCond now r = true
  · rw [if_pos h]
    unfold dropExpireCond
    simp
  · rw [if_neg h]
    rw [Bool.not_eq_true] at h
    exact h

/-- A request just processed by the swap sweep no longer matches it. -/
theorem swapUpd_no_recond (now : Int) (r : SwapRequest) :
    swapExpireCond now
      (if swapExpireCond now r then { r with status := SwapStatus.expired } else r) = false := by
  by_cases h : swapExpireCond now r = true
  · rw [if_pos h]
    unfold swapExpireCond
    simp
  · rw [if_neg h]
    rw [Bool.not_eq_true] at h
    exact h

/-- The swap sweep never makes a request eligible for the drop sweep. -/
theorem swapUpd_preserves_dropFalse (now : Int) (r : SwapRequest)
    (h : dropExpireCond now r = false) :
    dropExpireCond now
      (if swapExpireCond now r then { r with status := SwapStatus.expired } else r) = false := by
  by_cases hs : swapExpireCond now r = true
  · rw [if_pos hs]
    unfold dropExpireCond
    simp
  · rw [if_neg hs]
    exact h

/-- A drop sweep with nothing eligible is the identity. -/
theorem expire_drop_eq_of_no_match (db : DB) (now : Int)
    (h : ∀ r ∈ db.swaps, dropExpireCond now r = false) :
    expire_drop_requests db now = db := by
  unfold expire_drop_requests
  have hswaps : db.swaps.map (fun r =>
      if dropExpireCond now r then { r with status := SwapStatus.expired } else r) = db.swaps := by
    rw [List.map_congr_left (fun r hr => by rw [h r hr])]
    exact List.map_id db.swaps
  have hassign : db.assignments.map (fun a =>
      if db.swaps.any (fun r => dropExpireCond now r && r.assignmentId == a.id) then
        { a with status := AssignmentStatus.assigned }
      else a) = db.assignments := by
    have hany : ∀ a : ShiftAssignment,
        (db.swaps.any (fun r => dropExpireCond now r && r.assignmentId == a.id)) = false := by
      intro a
      rw [List.any_eq_false]
      intro r hr
      rw [h r hr]
      simp
    rw [List.map_congr_left (fun a _ => by rw [hany a])]
    exact List.map_id db.assignments
  rw [hswaps, hassign]

/-- A swap sweep with nothing eligible is the identity. -/
theorem expire_swap_eq_of_no_match (db : DB) (now : Int)
    (h : ∀ r ∈ db.swaps, swapExpireCond now r = false) :
    expire_swap_requests db now = db := by
  unfold expire_swap_requests
  have hswaps : db.swaps.map (fun r =>
      if swapExpireCond now r then { r with status := SwapStatus.expired } else r) = db.swaps := by
    rw [List.map_congr_left (fun r hr => by rw [h r hr])]
    exact List.map_id db.swaps
  have hassign : db.assignments.map (fun a =>
      if db.swaps.any (fun r => swapExpireCond now r && r.assignmentId == a.id) then
        { a with status := AssignmentStatus.assigned }
      else a) = db.assignments := by
    have hany : ∀ a : ShiftAssignment,
        (db.swaps.any (fun r => swapExpireCond now r && r.assignmentId == a.id)) = false := by
      intro a
      rw [List.any_eq_false]
      intro r hr
      rw [h r hr]
      simp
    rw [List.map_congr_left (fun a _ => by rw [hany a])]
    exact List.map_id db.assignments
  rw [hswaps, hassign]

/-- After a drop sweep run, no request matches the drop sweep. -/
theorem drop_swaps_unmatched (db : DB) (now : Int) :
    ∀ r ∈ (expire_drop_requests db now).swaps, dropExpireCond now r = false := by
  intro r hr
  unfold expire_drop_requests at hr
  dsimp only at hr
  rcases List.mem_map.mp hr with ⟨r0, _, rfl⟩
  exact dropUpd_no_recond now r0

/-- After a swap sweep run, no request matches the swap sweep. -/
theorem swap_swaps_unmatched (db : DB) (now : Int) :
    ∀ r ∈ (expire_swap_requests db now).swaps, swapExpireCond now r = false := by
  intro r hr
  unfold expire_swap_requests at hr
  dsimp only at hr
  rcases List.mem_map.mp hr with ⟨r0, _, rfl⟩
  exact swapUpd_no_recond now r0

/-- After a full sweep, no request matches either task. -/
theorem sweep_swaps_unmatched (db : DB) (now : Int) :
    ∀ r ∈ (expirySweep db now).swaps,
      dropExpireCond now r = false ∧ swapExpireCond now r = false := by
  intro r hr
  unfold expirySweep expire_swap_requests at hr
  dsimp only at hr
  rcases List.mem_map.mp hr with ⟨r1, hr1, rfl⟩
  have hdrop1 : dropExpireCond now r1 = false := drop_swaps_unmatched db now r1 hr1
  exact ⟨swapUpd_preserves_dropFalse now r1 hdrop1, swapUpd_no_recond now r1⟩

/-- Claim C9: each expiry task is idempotent, and running the whole sweep
(expire_drop_requests then expire_swap_requests) twice at the same instant
produces the same state as running it once: the second run matches no
request, so it transitions no request and restores no assignment. -/
theorem c9_expiry_sweep_idempotent :
    (∀ db now, expire_drop_requests (expire_drop_requests db now) now =
      expire_drop_requests db now) ∧
    (∀ db now, expire_swap_requests (expire_swap_requests db now) now =
      expire_swap_requests db now) ∧
    (∀ db now, expirySweep (expirySweep db now) now = expirySweep db now) := by
  refine ⟨?_, ?_, ?_⟩
  · intro db now
    exact expire_drop_eq_of_no_match _ now (drop_swaps_unmatched db now)
  · intro db now
    exact expire_swap_eq_of_no_match _ now (swap_swaps_unmatched db now)
  · intro db now
    have hun := sweep_swaps_unmatched db now
    calc expirySweep (expirySweep db now) now
        = expire_swap_requests (expire_drop_requests (expirySweep db now) now) now := rfl
      _ = expire_swap_requests (expirySweep db now) now := by
          rw [expire_drop_eq_of_no_match _ _ (fun r hr => (hun r hr).1)]
      _ = expirySweep db now := by
          rw [expire_swap_eq_of_no_match _ _ (fun r hr => (hun r hr).2)]

-- ---------------------------------------------------------------------------
-- C8: consecutive worked days
-- ---------------------------------------------------------------------------

/-- The backwards walk counts at least `n` when the first `n` days back from
`start` all have work. -/
theorem consecutiveBeforeAux_ge (db : DB) (u : User) :
    ∀ (n fuel : Nat) (start : Int), n ≤ fuel →
    (∀ i : Nat, i < n → hasWorkOnUtcDate db u (start - i) = true) →
    n ≤ consecutiveBeforeAux db u fuel start := by
  intro n
  induction n with
  | zero =>
    intro fuel start _ _
    simp
  | succ k ih =>
    intro fuel start hn hwork
    cases fuel with
    | zero => omega
    | succ f =>
      have h0 : hasWorkOnUtcDate db u start = true := by
        simpa using hwork 0 (by omega)
      unfold consecutiveBeforeAux
      rw [h0, if_pos rfl]
      have htail := ih f (start - 1) (by omega) (fun i hi => by
        have h2 := hwork (i + 1) (by omega)
        have harg : start - ((i + 1 : Nat) : Int) = start - 1 - (i : Int) := by
          push_cast
          ring
        rw [harg] at h2
        exact h2)
      omega

/-- The backwards walk counts exactly `n` when the first `n` days back have
work and day `n + 1` back does not (with fuel to spare). -/
theorem consecutiveBeforeAux_eq (db : DB) (u : User) :
    ∀ (n fuel : Nat) (start : Int), n < fuel →
    (∀ i : Nat, i < n → hasWorkOnUtcDate db u (start - i) = true) →
    hasWorkOnUtcDate db u (start - n) = false →
    consecutiveBeforeAux db u fuel start = n := by
  intro n
  induction n with
  | zero =>
    intro fuel start hn _ hstop
    cases fuel with
    | zero => omega
    | succ f =>
      have h0 : hasWorkOnUtcDate db u start = false := by
        simpa using hstop
      unfold consecutiveBeforeAux
      rw [h0]
      simp
  | succ k ih =>
    intro fuel start hn hwork hstop
    cases fuel with
    | zero => omega
    | succ f =>
      have h0 : hasWorkOnUtcDate db u start = true := by
        simpa using hwork 0 (by omega)
      unfold consecutiveBeforeAux
      rw [h0, if_pos rfl]
      have htail := ih f (start - 1) (by omega)
        (fun i hi => by
          have h2 := hwork (i + 1) (by omega)
          have harg : start - ((i + 1 : Nat) : Int) = start - 1 - (i : Int) := by
            push_cast
            ring
          rw [harg] at h2
          exact h2)
        (by
          have harg : start - ((k + 1 : Nat) : Int) = start - 1 - (k : Int) := by
            push_cast
            ring
          rw [harg] at hstop
          exact hstop)
      omega

/-- Work on the six preceding days (as the walk measures them) forces the
override_required branch of check_consecutive_days. -/
theorem consecutive_days_override (db : DB) (u : User) (s : Shift)
    (hwork : ∀ i : Nat, i < 6 →
      hasWorkOnUtcDate db u (localDate (db.location s).tz s.startUtc - 1 - i) = true) :
    ∃ m, check_consecutive_days db u s =
      ConstraintResult.mkOverrideRequired "consecutive_days_7" m := by
  unfold check_consecutive_days
  dsimp only
  have h6 : 6 ≤ consecutiveBeforeAux db u 7 (localDate (db.location s).tz s.startUtc - 1) :=
    consecutiveBeforeAux_ge db u 6 7 (localDate (db.location s).tz s.startUtc - 1)
      (by omega) hwork
  rw [if_pos (by
    show SHIFTSYNC.CONSECUTIVE_DAYS_OVERRIDE ≤ _
    have : SHIFTSYNC.CONSECUTIVE_DAYS_OVERRIDE = 7 := rfl
    omega)]
  exact ⟨_, rfl⟩

/-- Work on exactly the five preceding days forces the warning branch of
check_consecutive_days. -/
theorem consecutive_days_warning5 (db : DB) (u : User) (s : Shift)
    (hwork : ∀ i : Nat, i < 5 →
      hasWorkOnUtcDate db u (localDate (db.location s).tz s.startUtc - 1 - i) = true)
    (hstop : hasWorkOnUtcDate db u (localDate (db.location s).tz s.startUtc - 1 - 5) = false) :
    ∃ m, check_consecutive_days db u s =
      ConstraintResult.mkWarning "consecutive_days_6" m [] := by
  unfold check_consecutive_days
  dsimp only
  have h5 : consecutiveBeforeAux db u 7 (localDate (db.location s).tz s.startUtc - 1) = 5 := by
    apply consecutiveBeforeAux_eq db u 5 7 _ (by omega) hwork
    have harg : localDate (db.location s).tz s.startUtc - 1 - ((5 : Nat) : Int) =
        localDate (db.location s).tz s.startUtc - 1 - 5 := by push_cast; ring
    rw [harg]
    exact hstop
  rw [h5]
  rw [if_neg (by
    have : SHIFTSYNC.CONSECUTIVE_DAYS_OVERRIDE = 7 := rfl
    omega)]
  rw [if_pos (by
    have : SHIFTSYNC.CONSECUTIVE_DAYS_WARNING = 6 := rfl
    omega)]
  exact ⟨_, rfl⟩

/-- Claim C8 as amended. Part 1: with checks 1-5 passing and neither hours
check blocking, a worker whose six preceding days - as the walk measures
them, by the UTC calendar date of each prior shift start against the
site-local date of the proposal - all have active assignments receives
severity override_required with rule id consecutive_days_7. Part 2: with
exactly five such prior days and both hours checks clean, the proposal (the
6th day) yields the consecutive_days_6 warning. Part 3: on an
override_required engine result, re-attempting the assignment with a
non-empty override reason succeeds and persists exactly one ManagerOverride
record for the new assignment. -/
theorem c8_consecutive_days :
    (∀ db u s,
      check_skill_match db u s = ConstraintResult.success →
      check_location_certification db u s = ConstraintResult.success →
      check_availability db u s = Except.ok ConstraintResult.success →
      check_no_double_booking db u s = ConstraintResult.success →
      check_minimum_rest db u s = ConstraintResult.success →
      (check_daily_hours db u s).severity ≠ "block" →
      (check_weekly_hours db u s).severity ≠ "block" →
      (∀ i : Nat, i < 6 →
        hasWorkOnUtcDate db u (localDate (db.location s).tz s.startUtc - 1 - i) = true) →
      sevOf (ConstraintEngine.check db u s) = "override_required" ∧
      cidOf (ConstraintEngine.check db u s) = "consecutive_days_7") ∧
    (∀ db u s,
      check_skill_match db u s = ConstraintResult.success →
      check_location_certification db u s = ConstraintResult.success →
      check_availability db u s = Except.ok ConstraintResult.success →
      check_no_double_booking db u s = ConstraintResult.success →
      check_minimum_rest db u s = ConstraintResult.success →
      check_daily_hours db u s = ConstraintResult.success →
      check_weekly_hours db u s = ConstraintResult.success →
      (∀ i : Nat, i < 5 →
        hasWorkOnUtcDate db u (localDate (db.location s).tz s.startUtc - 1 - i) = true) →
      hasWorkOnUtcDate db u (localDate (db.location s).tz s.startUtc - 1 - 5) = false →
      sevOf (ConstraintEngine.check db u s) = "warning" ∧
      cidOf (ConstraintEngine.check db u s) = "consecutive_days_6") ∧
    (∀ db shiftId userId mgr (reason : String) s u r,
      db.findShift shiftId = some s →
      db.findUser userId = some u →
      ConstraintEngine.check db u s = Except.ok r →
      r.ok = false →
      r.severity = "override_required" →
      pyStrip reason ≠ "" →
      (∀ a ∈ db.assignments, ¬(a.shiftId = s.id ∧ a.userId = u.id)) →
      (∀ o ∈ db.overrides, o.assignmentId ≠ db.nextAssignmentId) →
      (assign_staff db shiftId userId reason mgr).assignments =
        db.assignments ++
          [⟨db.nextAssignmentId, s.id, u.id, AssignmentStatus.assigned, some mgr⟩] ∧
      (assign_staff db shiftId userId reason mgr).overrides =
        db.overrides ++ [⟨mgr, db.nextAssignmentId, r.constraintId, pyStrip reason⟩] ∧
      ((assign_staff db shiftId userId reason mgr).overrides.filter
        (fun o => o.assignmentId == db.nextAssignmentId)).length = 1) := by
  refine ⟨?_, ?_, ?_⟩
  · intro db u s h1 h2 h3 h4 h5 hd hw hwork
    rcases consecutive_days_override db u s hwork with ⟨mc, hcc⟩
    rw [engine_tail_eq db u s h1 h2 h3 h4 h5]
    rcases daily_hours_cases db u s with hdc | ⟨md, hdc⟩ | ⟨md, hdc⟩ <;>
      rcases weekly_hours_cases db u s with hwc | ⟨mw, hwc⟩ | ⟨mw, hwc⟩ <;>
      first
        | exact absurd (by rw [hdc]; exact mkBlock_severity _ _ _) hd
        | exact absurd (by rw [hwc]; exact mkBlock_severity _ _ _) hw
        | (rw [hdc, hwc, hcc]; simp [engineLoop, sevOf, cidOf])
  · intro db u s h1 h2 h3 h4 h5 hd hw hwork hstop
    rcases consecutive_days_warning5 db u s hwork hstop with ⟨mc, hcc⟩
    rw [engine_tail_eq db u s h1 h2 h3 h4 h5, hd, hw, hcc]
    simp [engineLoop, sevOf, cidOf]
  · intro db shiftId userId mgr reason s u r hs hu hr hok hsev htrim hnone hfresh
    have hany : (db.assignments.any (fun a => a.shiftId == s.id && a.userId == u.id)) = false := by
      rw [List.any_eq_false]
      intro a ha
      simpa using hnone a ha
    unfold assign_staff
    simp only [hs, hu, hr]
    rw [if_pos hok, if_pos hsev, if_neg (by simpa using htrim), hany]
    simp only [Bool.false_eq_true, if_false, if_pos hsev]
    refine ⟨by first | rfl | trivial, by first | rfl | trivial, ?_⟩
    rw [List.filter_append]
    have hleft : db.overrides.filter (fun o => o.assignmentId == db.nextAssignmentId) = [] := by
      rw [List.filter_eq_nil_iff]
      intro o ho
      simpa using hfresh o ho
    rw [hleft]
    simp

/-- Six prior-day assignments at the New York site, each 22:00-23:00 local
(02:00-03:00 UTC of the next UTC day), on consecutive site-local days. -/
def priorsC8 : List Shift :=
  [mkShift 1 2 3000 3060, mkShift 2 2 4440 4500, mkShift 3 2 5880 5940,
   mkShift 4 2 7320 7380, mkShift 5 2 8760 8820, mkShift 6 2 10200 10260]

/-- The 7th-day proposal at the New York site (10:00-14:00 local Monday). -/
def sC8 : Shift :=
  mkShift 10 2 10920 11160

/-- Alice with six consecutive prior site-local worked days at the New York
site and Monday availability. -/
def dbC8 : DB :=
  baseDB (priorsC8 ++ [sC8])
    [mkAsg 1 1 1, mkAsg 2 2 1, mkAsg 3 3 1, mkAsg 4 4 1, mkAsg 5 5 1, mkAsg 6 6 1]
    [weeklyAvail 1 0 0 1439 utcTz] 7

/-- Claim C8 counterexample: Alice holds an active assignment on each of the
6 consecutive site-local calendar days immediately preceding the proposed
shift date (first conjunct), yet the engine returns a consecutive_days_6
warning, not override_required: the walk in check_consecutive_days compares
the UTC date of each prior shift start (via the TIME_ZONE="UTC" `__date`
lookup) against site-local check dates, and the late-evening New York shifts
fall on the next UTC day, so the walk counts only 5 prior days. -/
theorem c8_counterexample :
    ((List.range 6).all (fun i =>
      dbC8.assignments.any (fun a =>
        decide (a.userId = alice.id) && activeStatus a.status &&
        (match dbC8.findShift a.shiftId with
         | some sh => decide (localDate (dbC8.location sh).tz sh.startUtc =
             localDate (dbC8.location sC8).tz sC8.startUtc - (i + 1))
         | none => false))) = true) ∧
    sevOf (ConstraintEngine.check dbC8 alice sC8) = "warning" ∧
    cidOf (ConstraintEngine.check dbC8 alice sC8) = "consecutive_days_6" :=
  ⟨rfl, rfl, rfl⟩

/-- Six prior-day assignments at the UTC site, 22:00-23:00 UTC on days 1-6. -/
def priorsC8w : List Shift :=
  [mkShift 1 1 2760 2820, mkShift 2 1 4200 4260, mkShift 3 1 5640 5700,
   mkShift 4 1 7080 7140, mkShift 5 1 8520 8580, mkShift 6 1 9960 10020]

/-- The 7th-day proposal at the UTC site (day 7, 10:00-14:00). -/
def sC8w : Shift :=
  mkShift 10 1 10680 10920

/-- Alice with six consecutive prior UTC worked days. -/
def dbC8w : DB :=
  baseDB (priorsC8w ++ [sC8w])
    [mkAsg 1 1 1, mkAsg 2 2 1, mkAsg 3 3 1, mkAsg 4 4 1, mkAsg 5 5 1, mkAsg 6 6 1]
    [weeklyAvail 1 0 0 1439 utcTz] 7

/-- The same state with only five prior worked days (days 2-6). -/
def dbC8w5 : DB :=
  baseDB (priorsC8w ++ [sC8w])
    [mkAsg 2 2 1, mkAsg 3 3 1, mkAsg 4 4 1, mkAsg 5 5 1, mkAsg 6 6 1]
    [weeklyAvail 1 0 0 1439 utcTz] 7

/-- The override_required engine result at the 7th-day witness state. -/
def rC8 : ConstraintResult :=
  match ConstraintEngine.check dbC8w alice sC8w with
  | Except.ok r => r
  | Except.error _ => ConstraintResult.success

/-- Witness for C8 as amended: override_required on the 7th consecutive day,
warning on the 6th, and a successful override-assignment creating exactly
one ManagerOverride record. -/
theorem c8_witness :
    (sevOf (ConstraintEngine.check dbC8w alice sC8w) = "override_required" ∧
     cidOf (ConstraintEngine.check dbC8w alice sC8w) = "consecutive_days_7") ∧
    (sevOf (ConstraintEngine.check dbC8w5 alice sC8w) = "warning" ∧
     cidOf (ConstraintEngine.check dbC8w5 alice sC8w) = "consecutive_days_6") ∧
    ((assign_staff dbC8w 10 1 " documented reason " 9).assignments =
       dbC8w.assignments ++
         [⟨dbC8w.nextAssignmentId, sC8w.id, alice.id, AssignmentStatus.assigned, some 9⟩] ∧
     (assign_staff dbC8w 10 1 " documented reason " 9).overrides =
       dbC8w.overrides ++
         [⟨9, dbC8w.nextAssignmentId, rC8.constraintId, pyStrip " documented reason "⟩] ∧
     ((assign_staff dbC8w 10 1 " documented reason " 9).overrides.filter
       (fun o => o.assignmentId == dbC8w.nextAssignmentId)).length = 1) :=
  ⟨c8_consecutive_days.1 dbC8w alice sC8w rfl rfl rfl rfl rfl (by decide) (by decide)
     (by decide),
   c8_consecutive_days.2.1 dbC8w5 alice sC8w rfl rfl rfl rfl rfl rfl rfl (by decide) rfl,
   c8_consecutive_days.2.2 dbC8w 10 1 9 " documented reason " sC8w alice rC8 rfl rfl rfl
     rfl rfl (by decide) (by decide) (by decide)⟩

-- ---------------------------------------------------------------------------
-- C4: manager approval of swap/drop requests
-- ---------------------------------------------------------------------------

/-- A second staff member (the swap requester in the C4 scenario). -/
def bob : User :=
  ⟨2, "Bob Sample", Role.staff, true, [1]⟩

/-- A swap request from Bob to Alice awaiting manager review. -/
def swapC4 : SwapRequest :=
  ⟨50, 2, some 1, none, 100, SwapType.swap, SwapStatus.pendingManager, none, 0, none⟩

/-- Bob holds the originating SWAP_PENDING assignment on the day-7 shift;
Alice (the incoming worker) has worked the six prior days, so the engine
returns override_required for her. -/
def dbC4 : DB :=
  { baseDB (priorsC8w ++ [sC8w])
      [mkAsg 1 1 1, mkAsg 2 2 1, mkAsg 3 3 1, mkAsg 4 4 1, mkAsg 5 5 1, mkAsg 6 6 1,
       ⟨100, 10, 2, AssignmentStatus.swapPending, some 9⟩]
      [weeklyAvail 1 0 0 1439 utcTz] 101 with
    users := [alice, bob], swaps := [swapC4] }

/-- Bob's originating assignment in the C4 scenario. -/
def asgC4 : ShiftAssignment :=
  ⟨100, 10, 2, AssignmentStatus.swapPending, some 9⟩

/-- Claim C4 counterexample: the engine returns override_required for the
incoming worker, yet the manager approval goes through with no confirmation
and no reason (SwapReviewView.post reads no override reason at all): the
request becomes APPROVED, the originating assignment becomes COVERED, a new
active assignment is created for the incoming worker, and no ManagerOverride
record is persisted. -/
theorem c4_counterexample :
    sevOf (ConstraintEngine.check dbC4 alice sC8w) = "override_required" ∧
    (approve_swap dbC4 50 9).swaps.map SwapRequest.status = [SwapStatus.approved] ∧
    (approve_swap dbC4 50 9).overrides = [] ∧
    ((approve_swap dbC4 50 9).assignments.filter (fun a =>
      a.userId == alice.id && a.shiftId == 10 && activeStatus a.status)).length = 1 ∧
    ((approve_swap dbC4 50 9).assignments.find? (fun a => a.id == 100)).map
      ShiftAssignment.status = some AssignmentStatus.covered :=
  ⟨rfl, rfl, rfl, rfl, rfl⟩

/-- Claim C4 as amended. Part 1: manager approval never writes a
ManagerOverride record, whatever the engine result. Part 2: for a
PENDING_MANAGER request, a fresh hard block aborts the approval with no
state change, while an ok, warning, or override_required result is allowed
through without any confirmation or reason: the originating assignment is
saved as COVERED, a new ASSIGNED assignment is created for the incoming
worker, and the request becomes APPROVED. -/
theorem c4_swap_approval :
    (∀ db swapId mgr, (approve_swap db swapId mgr).overrides = db.overrides) ∧
    (∀ db swapId mgr swap incomingId incoming asg shift result,
      db.swaps.find? (fun r => r.id == swapId) = some swap →
      swap.status = SwapStatus.pendingManager →
      incomingIdOf swap = some incomingId →
      db.findUser incomingId = some incoming →
      db.findAssignment swap.assignmentId = some asg →
      db.findShift asg.shiftId = some shift →
      ConstraintEngine.check db incoming shift = Except.ok result →
      (∀ a ∈ db.assignments, a.userId = incoming.id → a.shiftId = shift.id →
        activeStatus a.status = true → a.id = asg.id) →
      ((result.ok = false ∧ result.severity ≠ "override_required") →
        approve_swap db swapId mgr = db) ∧
      ((result.ok = true ∨ result.severity = "override_required") →
        (approve_swap db swapId mgr).assignments =
          db.assignments.map (fun a =>
            if a.id == asg.id then { a with status := AssignmentStatus.covered } else a) ++
          [⟨db.nextAssignmentId, shift.id, incoming.id, AssignmentStatus.assigned, some mgr⟩] ∧
        (approve_swap db swapId mgr).swaps =
          db.swaps.map (fun r =>
            if r.id == swap.id then
              { r with status := SwapStatus.approved, reviewedById := some mgr }
            else r))) := by
  constructor
  · intro db swapId mgr
    unfold approve_swap
    repeat' split
    all_goals first
      | rfl
      | (dsimp only; split <;> rfl)
  · intro db swapId mgr swap incomingId incoming asg shift result hfind hst hinc huser hasg
      hshift hres hsolo
    unfold approve_swap
    simp only [hfind, hinc, huser, hasg, hshift, hres]
    constructor
    · intro h
      rw [if_pos h]
    · intro hpass
      have hneg : ¬(result.ok = false ∧ result.severity ≠ "override_required") := by
        rcases hpass with h | h
        · intro hcon
          rw [h] at hcon
          cases hcon.1
        · intro hcon
          exact hcon.2 h
      rw [if_neg hneg]
      have hany : ((db.assignments.map (fun (a : ShiftAssignment) =>
          if a.id == asg.id then { a with status := AssignmentStatus.covered } else a)).any
          (fun a => a.shiftId == shift.id && a.userId == incoming.id &&
            activeStatus a.status)) = false := by
        rw [List.any_eq_false]
        intro a ha
        rcases List.mem_map.mp ha with ⟨a0, ha0, rfl⟩
        by_cases h0 : (a0.id == asg.id) = true
        · rw [if_pos h0]
          simp [activeStatus]
        · rw [if_neg h0]
          intro hcon
          simp only [Bool.and_eq_true, beq_iff_eq] at hcon
          exact h0 (by
            rw [hsolo a0 ha0 hcon.1.2 hcon.1.1 hcon.2]
            simp)
      rw [hany]
      simp only [Bool.false_eq_true, if_false]
      exact ⟨by first | rfl | trivial, by first | rfl | trivial⟩

/-- The engine result for the incoming worker in the C4 scenario. -/
def rC4 : ConstraintResult :=
  match ConstraintEngine.check dbC4 alice sC8w with
  | Except.ok r => r
  | Except.error _ => ConstraintResult.success

/-- Witness for C4 as amended, at the override_required scenario: approval
goes through, transitioning the originating assignment and the request and
creating the incoming assignment, with the override ledger untouched. -/
theorem c4_witness :
    (approve_swap dbC4 50 9).overrides = dbC4.overrides ∧
    (approve_swap dbC4 50 9).assignments =
      dbC4.assignments.map (fun a =>
        if a.id == asgC4.id then { a with status := AssignmentStatus.covered } else a) ++
      [⟨dbC4.nextAssignmentId, sC8w.id, alice.id, AssignmentStatus.assigned, some 9⟩] ∧
    (approve_swap dbC4 50 9).swaps =
      dbC4.swaps.map (fun r =>
        if r.id == swapC4.id then
          { r with status := SwapStatus.approved, reviewedById := some 9 }
        else r) :=
  ⟨c4_swap_approval.1 dbC4 50 9,
   (c4_swap_approval.2 dbC4 50 9 swapC4 1 alice asgC4 sC8w rC4 rfl rfl rfl rfl rfl rfl rfl
     (by decide)).2 (Or.inr rfl)⟩

-- ---------------------------------------------------------------------------
-- C1: the no-overlapping-active-assignments safety property
-- ---------------------------------------------------------------------------

instance (db : DB) : Decidable (WellFormedIds db) := by
  unfold WellFormedIds
  infer_instance

instance (db : DB) : Decidable (PendingBacked db) := by
  unfold PendingBacked
  infer_instance

instance (db : DB) : Decidable (OnePendingPerAssignment db) := by
  unfold OnePendingPerAssignment
  infer_instance

instance (db : DB) : Decidable (WorkflowInv db) := by
  unfold WorkflowInv
  infer_instance

/-- In a list with pairwise-distinct ids, an id determines the element. -/
theorem pairwise_id_unique {α : Type} (idf : α → Nat) :
    ∀ (l : List α), l.Pairwise (fun x y => idf x ≠ idf y) →
    ∀ a b, a ∈ l → b ∈ l → idf a = idf b → a = b := by
  intro l
  induction l with
  | nil =>
    intro _ a b ha _ _
    cases ha
  | cons hd tl ih =>
    intro hp a b ha hb hid
    rcases List.pairwise_cons.mp hp with ⟨hhd, htl⟩
    rcases List.mem_cons.mp ha with rfl | ha2
    · rcases List.mem_cons.mp hb with rfl | hb2
      · rfl
      · exact absurd hid (hhd b hb2)
    · rcases List.mem_cons.mp hb with rfl | hb2
      · exact absurd hid.symm (hhd a ha2)
      · exact ih htl a b ha2 hb2 hid

/-- Mapping an id-preserving function keeps ids pairwise distinct. -/
theorem pairwise_ids_map {α : Type} (idf : α → Nat) (f : α → α)
    (hf : ∀ a, idf (f a) = idf a) (l : List α)
    (hp : l.Pairwise (fun x y => idf x ≠ idf y)) :
    (l.map f).Pairwise (fun x y => idf x ≠ idf y) := by
  rw [List.pairwise_map]
  exact hp.imp (fun h => by rwa [hf, hf])

/-- A per-row status update that only deactivates or keeps rows active, and
preserves ids, owners and shifts, preserves overlap-freedom. -/
theorem noOverlap_map (db : DB) (f : ShiftAssignment → ShiftAssignment)
    (hid : ∀ a, (f a).id = a.id) (hsh : ∀ a, (f a).shiftId = a.shiftId)
    (hus : ∀ a, (f a).userId = a.userId)
    (hact : ∀ a ∈ db.assignments, activeStatus (f a).status = true →
      activeStatus a.status = true)
    (h : noOverlappingActive db) :
    noOverlappingActive { db with assignments := db.assignments.map f } := by
  intro a1 h1 a2 h2 hne huser hact1 hact2 s1 hs1 s2 hs2 hid1 hid2
  rcases List.mem_map.mp h1 with ⟨b1, hb1, rfl⟩
  rcases List.mem_map.mp h2 with ⟨b2, hb2, rfl⟩
  refine h b1 hb1 b2 hb2 ?_ ?_ (hact b1 hb1 hact1) (hact b2 hb2 hact2) s1 hs1 s2 hs2 ?_ ?_
  · rwa [hid, hid] at hne
  · rwa [hus, hus] at huser
  · rwa [hsh] at hid1
  · rwa [hsh] at hid2

/-- Conditionally restamping a status keeps an assignment's key fields. -/
theorem cond_status_fields (c : Bool) (st : AssignmentStatus) (a : ShiftAssignment) :
    (if c = true then { a with status := st } else a).id = a.id ∧
    (if c = true then { a with status := st } else a).shiftId = a.shiftId ∧
    (if c = true then { a with status := st } else a).userId = a.userId := by
  split <;> exact ⟨rfl, rfl, rfl⟩

/-- Conditionally restamping a status keeps a request's key fields. -/
theorem cond_swap_fields (c : Bool) (st : SwapStatus) (r : SwapRequest) :
    (if c = true then { r with status := st } else r).id = r.id ∧
    (if c = true then { r with status := st } else r).assignmentId = r.assignmentId := by
  split <;> exact ⟨rfl, rfl⟩

/-- Requester cancellation preserves the workflow invariant. -/
theorem cancel_preserves (db : DB) (swapId userId : Nat) (h : WorkflowInv db) :
    WorkflowInv (cancel_swap db swapId userId) := by
  obtain ⟨⟨hbound, hpa, hps, hpw⟩, hpb, hop, hno⟩ := h
  unfold cancel_swap
  cases hfind : db.swaps.find? (fun r => r.id == swapId) with
  | none => exact ⟨⟨hbound, hpa, hps, hpw⟩, hpb, hop, hno⟩
  | some swap =>
    dsimp only
    by_cases hguard : (swap.requesterId == userId && swap.is_pending) = true
    · rw [if_pos hguard]
      have hswapmem : swap ∈ db.swaps := List.mem_of_find?_eq_some hfind
      have hpend : swap.is_pending = true := (Bool.and_eq_true _ _ ▸ hguard).2
      have hfid : ∀ a : ShiftAssignment,
          (if a.id == swap.assignmentId then { a with status := AssignmentStatus.assigned }
            else a).id = a.id :=
        fun a => (cond_status_fields _ _ a).1
      have hgid : ∀ r : SwapRequest,
          (if r.id == swap.id then { r with status := SwapStatus.cancelled } else r).id = r.id :=
        fun r => (cond_swap_fields _ _ r).1
      -- the restored assignment was SWAP_PENDING, so the active set is unchanged
      have hact : ∀ a ∈ db.assignments,
          activeStatus (if a.id == swap.assignmentId
            then { a with status := AssignmentStatus.assigned } else a).status = true →
          activeStatus a.status = true := by
        intro a ha hact0
        by_cases hc : (a.id == swap.assignmentId) = true
        · rcases hpb swap hswapmem hpend with ⟨a2, ha2, hid2, hst2⟩
          have : a = a2 := pairwise_id_unique ShiftAssignment.id db.assignments hpa a a2 ha ha2
            (by rw [hid2]; exact beq_iff_eq.mp hc)
          rw [this, hst2]
          rfl
        · rwa [if_neg hc] at hact0
      refine ⟨⟨?_, ?_, hps, ?_⟩, ?_, ?_, ?_⟩
      · intro a hmem
        rcases List.mem_map.mp hmem with ⟨a0, ha0, rfl⟩
        rw [hfid a0]
        exact hbound a0 ha0
      · exact pairwise_ids_map ShiftAssignment.id _ hfid db.assignments hpa
      · exact pairwise_ids_map SwapRequest.id _ hgid db.swaps hpw
      · -- PendingBacked
        intro r2 hr2 hp2
        rcases List.mem_map.mp hr2 with ⟨r0, hr0, rfl⟩
        by_cases hc : (r0.id == swap.id) = true
        · rw [if_pos hc] at hp2
          simp [SwapRequest.is_pending] at hp2
        · rw [if_neg hc] at hp2 ⊢
          rcases hpb r0 hr0 hp2 with ⟨a2, ha2, hid2, hst2⟩
          have hne : (a2.id == swap.assignmentId) = false := by
            by_cases heq : (a2.id == swap.assignmentId) = true
            · exfalso
              have hasg : r0.assignmentId = swap.assignmentId := by
                rw [← hid2]
                exact beq_iff_eq.mp heq
              have := hop r0 hr0 swap hswapmem hp2 hpend hasg
              rw [this] at hc
              simp at hc
            · simpa using heq
          refine ⟨(if a2.id == swap.assignmentId
            then { a2 with status := AssignmentStatus.assigned } else a2),
            List.mem_map_of_mem _ ha2, ?_, ?_⟩
          · rw [hne]
            simpa using hid2
          · rw [hne]
            simpa using hst2
      · -- OnePendingPerAssignment
        intro r2 hr2 q2 hq2 hp2 hq2p hasg2
        rcases List.mem_map.mp hr2 with ⟨r0, hr0, rfl⟩
        rcases List.mem_map.mp hq2 with ⟨q0, hq0, rfl⟩
        by_cases hc1 : (r0.id == swap.id) = true
        · rw [if_pos hc1] at hp2
          simp [SwapRequest.is_pending] at hp2
        · by_cases hc2 : (q0.id == swap.id) = true
          · rw [if_pos hc2] at hq2p
            simp [SwapRequest.is_pending] at hq2p
          · rw [if_neg hc1] at hp2 hasg2 ⊢
            rw [if_neg hc2] at hq2p hasg2 ⊢
            exact hop r0 hr0 q0 hq0 hp2 hq2p hasg2
      · -- overlap freedom
        exact noOverlap_map db _ hfid (fun a => (cond_status_fields _ _ a).2.1)
          (fun a => (cond_status_fields _ _ a).2.2) hact hno
    · rw [if_neg hguard]
      exact ⟨⟨hbound, hpa, hps, hpw⟩, hpb, hop, hno⟩

/-- A sweep that expires a subset of the pending requests and restores the
matched assignments to ASSIGNED preserves the workflow invariant. -/
theorem expire_preserves (db : DB) (cond : SwapRequest → Bool)
    (hpc : ∀ r, cond r = true → r.is_pending = true)
    (h : WorkflowInv db) :
    WorkflowInv { db with
      swaps := db.swaps.map (fun r =>
        if cond r then { r with status := SwapStatus.expired } else r),
      assignments := db.assignments.map (fun a =>
        if db.swaps.any (fun r => cond r && r.assignmentId == a.id) then
          { a with status := AssignmentStatus.assigned }
        else a) } := by
  obtain ⟨⟨hbound, hpa, hps, hpw⟩, hpb, hop, hno⟩ := h
  have hfid : ∀ a : ShiftAssignment,
      (if db.swaps.any (fun r => cond r && r.assignmentId == a.id) then
        { a with status := AssignmentStatus.assigned } else a).id = a.id :=
    fun a => (cond_status_fields _ _ a).1
  have hgid : ∀ r : SwapRequest,
      (if cond r then { r with status := SwapStatus.expired } else r).id = r.id :=
    fun r => (cond_swap_fields _ _ r).1
  -- a matched assignment is the backing row of some pending request
  have hmatched : ∀ a ∈ db.assignments,
      db.swaps.any (fun r => cond r && r.assignmentId == a.id) = true →
      a.status = AssignmentStatus.swapPending := by
    intro a ha hany
    rcases List.any_eq_true.mp hany with ⟨r1, hr1, hp1⟩
    have hc1 : cond r1 = true := (Bool.and_eq_true _ _ ▸ hp1).1
    have hasg1 : r1.assignmentId = a.id := beq_iff_eq.mp (Bool.and_eq_true _ _ ▸ hp1).2
    rcases hpb r1 hr1 (hpc r1 hc1) with ⟨a2, ha2, hid2, hst2⟩
    have : a = a2 := pairwise_id_unique ShiftAssignment.id db.assignments hpa a a2 ha ha2
      (by rw [hid2, hasg1])
    rw [this, hst2]
  refine ⟨⟨?_, ?_, hps, ?_⟩, ?_, ?_, ?_⟩
  · intro a hmem
    rcases List.mem_map.mp hmem with ⟨a0, ha0, rfl⟩
    rw [hfid a0]
    exact hbound a0 ha0
  · exact pairwise_ids_map ShiftAssignment.id _ hfid db.assignments hpa
  · exact pairwise_ids_map SwapRequest.id _ hgid db.swaps hpw
  · -- PendingBacked
    intro r2 hr2 hp2
    rcases List.mem_map.mp hr2 with ⟨r0, hr0, rfl⟩
    by_cases hc : cond r0 = true
    · rw [if_pos hc] at hp2
      simp [SwapRequest.is_pending] at hp2
    · rw [if_neg hc] at hp2 ⊢
      rcases hpb r0 hr0 hp2 with ⟨a2, ha2, hid2, hst2⟩
      have hne : db.swaps.any (fun r => cond r && r.assignmentId == a2.id) = false := by
        by_cases hany : db.swaps.any (fun r => cond r && r.assignmentId == a2.id) = true
        · exfalso
          rcases List.any_eq_true.mp hany with ⟨r1, hr1, hp1⟩
          have hc1 : cond r1 = true := (Bool.and_eq_true _ _ ▸ hp1).1
          have hasg1 : r1.assignmentId = a2.id := beq_iff_eq.mp (Bool.and_eq_true _ _ ▸ hp1).2
          have hsame : r1.assignmentId = r0.assignmentId := by rw [hasg1, hid2]
          have := hop r1 hr1 r0 hr0 (hpc r1 hc1) hp2 hsame
          have hr1eq : r1 = r0 := pairwise_id_unique SwapRequest.id db.swaps hpw r1 r0 hr1 hr0 this
          rw [hr1eq] at hc1
          exact hc hc1
        · simpa using hany
      refine ⟨(if db.swaps.any (fun r => cond r && r.assignmentId == a2.id) then
        { a2 with status := AssignmentStatus.assigned } else a2),
        List.mem_map_of_mem _ ha2, ?_, ?_⟩
      · rw [hne]
        simpa using hid2
      · rw [hne]
        simpa using hst2
  · -- OnePendingPerAssignment
    intro r2 hr2 q2 hq2 hp2 hq2p hasg2
    rcases List.mem_map.mp hr2 with ⟨r0, hr0, rfl⟩
    rcases List.mem_map.mp hq2 with ⟨q0, hq0, rfl⟩
    by_cases hc1 : cond r0 = true
    · rw [if_pos hc1] at hp2
      simp [SwapRequest.is_pending] at hp2
    · by_cases hc2 : cond q0 = true
      · rw [if_pos hc2] at hq2p
        simp [SwapRequest.is_pending] at hq2p
      · rw [if_neg hc1] at hp2 hasg2 ⊢
        rw [if_neg hc2] at hq2p hasg2 ⊢
        exact hop r0 hr0 q0 hq0 hp2 hq2p hasg2
  · -- overlap freedom: matched rows were SWAP_PENDING, hence already active
    refine noOverlap_map db _ hfid (fun a => (cond_status_fields _ _ a).2.1)
      (fun a => (cond_status_fields _ _ a).2.2) ?_ hno
    intro a ha hact0
    by_cases hany : db.swaps.any (fun r => cond r && r.assignmentId == a.id) = true
    · rw [hmatched a ha hany]
      rfl
    · rwa [if_neg hany] at hact0

/-- expire_drop_requests preserves the workflow invariant. -/
theorem expire_drop_preserves (db : DB) (now : Int) (h : WorkflowInv db) :
    WorkflowInv (expire_drop_requests db now) := by
  unfold expire_drop_requests
  refine expire_preserves db (dropExpireCond now) ?_ h
  intro r hc
  have hb : r.status = SwapStatus.pendingPickup := by
    unfold dropExpireCond at hc
    have h1 := (Bool.and_eq_true _ _ ▸ hc).1
    exact beq_iff_eq.mp (Bool.and_eq_true _ _ ▸ h1).2
  unfold SwapRequest.is_pending
  rw [hb]
  rfl

/-- expire_swap_requests preserves the workflow invariant. -/
theorem expire_swap_preserves (db : DB) (now : Int) (h : WorkflowInv db) :
    WorkflowInv (expire_swap_requests db now) := by
  unfold expire_swap_requests
  refine expire_preserves db (swapExpireCond now) ?_ h
  intro r hc
  have hb : r.status = SwapStatus.pendingAcceptance := by
    unfold swapExpireCond at hc
    have h1 := (Bool.and_eq_true _ _ ▸ hc).1
    exact beq_iff_eq.mp (Bool.and_eq_true _ _ ▸ h1).2
  unfold SwapRequest.is_pending
  rw [hb]
  rfl

/-- The state transformation of a successful swap approval preserves the
workflow invariant, given that the engine passed the incoming worker and that
the duplicate-create rollback branch was not taken (the view's own guard:
the incoming worker holds no active row on the shift once the originating
assignment is covered). -/
theorem approve_core_preserves (db : DB) (managerId : Nat) (swap : SwapRequest)
    (incoming : User) (asg : ShiftAssignment) (shift : Shift) (result : ConstraintResult)
    (hswapmem : swap ∈ db.swaps) (hpmswap : swap.status = SwapStatus.pendingManager)
    (hasgid : asg.id = swap.assignmentId)
    (hshiftmem : shift ∈ db.shifts)
    (hres : ConstraintEngine.check db incoming shift = Except.ok result)
    (hpassed : result.ok = true ∨ result.severity = "override_required")
    (hnodup : ((db.assignments.map (fun a =>
      if a.id == asg.id then { a with status := AssignmentStatus.covered } else a)).any
      (fun a => a.shiftId == shift.id && a.userId == incoming.id &&
        activeStatus a.status)) = false)
    (hinv : WorkflowInv db) :
    WorkflowInv { db with
      assignments := (db.assignments.map (fun a =>
        if a.id == asg.id then { a with status := AssignmentStatus.covered } else a)) ++
        [⟨db.nextAssignmentId, shift.id, incoming.id, AssignmentStatus.assigned,
          some managerId⟩],
      nextAssignmentId := db.nextAssignmentId + 1,
      swaps := db.swaps.map (fun r =>
        if r.id == swap.id then
          { r with status := SwapStatus.approved, reviewedById := some managerId }
        else r) } := by
  obtain ⟨⟨hbound, hpa, hps, hpw⟩, hpb, hop, hno⟩ := hinv
  have hconflict : conflictingAssignment db incoming shift = none :=
    engine_pass_no_conflict db incoming shift result hres hpassed
  have hconfNone : (activeWithShifts db incoming.id).find? (fun p =>
      decide (p.2.startUtc < shift.endUtc) && decide (p.2.endUtc > shift.startUtc) &&
      decide (p.2.id ≠ shift.id)) = none := by
    have h0 := hconflict
    unfold conflictingAssignment at h0
    exact h0
  have hnoactive : ∀ a ∈ db.assignments, (a.id == asg.id) = false → a.shiftId = shift.id →
      a.userId = incoming.id → activeStatus a.status = true → False := by
    intro a ha hcc hsh hus hact
    have hmem2 : (if a.id == asg.id then { a with status := AssignmentStatus.covered } else a)
        ∈ db.assignments.map (fun a =>
          if a.id == asg.id then { a with status := AssignmentStatus.covered } else a) :=
      List.mem_map_of_mem _ ha
    have h2 := List.any_eq_false.mp hnodup _ hmem2
    apply h2
    have hcc2 : ¬ ((a.id == asg.id) = true) := by
      rw [hcc]
      simp
    rw [if_neg hcc2]
    simp [hsh, hus, hact]
  have hfid : ∀ a : ShiftAssignment,
      (if a.id == asg.id then { a with status := AssignmentStatus.covered } else a).id = a.id :=
    fun a => (cond_status_fields _ _ a).1
  have hgid : ∀ r : SwapRequest,
      (if r.id == swap.id then
        { r with status := SwapStatus.approved, reviewedById := some managerId }
      else r).id = r.id :=
    fun r => by split <;> rfl
  have hswappend : swap.is_pending = true := by
    unfold SwapRequest.is_pending
    rw [hpmswap]
    rfl
  have hnoCov : noOverlappingActive { db with assignments := db.assignments.map (fun a =>
      if a.id == asg.id then { a with status := AssignmentStatus.covered } else a) } := by
    refine noOverlap_map db _ hfid (fun a => (cond_status_fields _ _ a).2.1)
      (fun a => (cond_status_fields _ _ a).2.2) ?_ hno
    intro a ha hact0
    by_cases hc : (a.id == asg.id) = true
    · rw [if_pos hc] at hact0
      simp [activeStatus] at hact0
    · rwa [if_neg hc] at hact0
  refine ⟨⟨?_, ?_, hps, ?_⟩, ?_, ?_, ?_⟩
  · -- id bound
    intro a hmem
    rcases List.mem_append.mp hmem with hc | hn
    · rcases List.mem_map.mp hc with ⟨a0, ha0, rfl⟩
      rw [hfid a0]
      exact Nat.lt_succ_of_lt (hbound a0 ha0)
    · rw [List.mem_singleton] at hn
      rw [hn]
      exact Nat.lt_succ_self db.nextAssignmentId
  · -- assignment ids pairwise distinct
    refine List.pairwise_append.mpr
      ⟨pairwise_ids_map ShiftAssignment.id _ hfid db.assignments hpa, by simp, ?_⟩
    intro a hc b hn
    rcases List.mem_map.mp hc with ⟨a0, ha0, rfl⟩
    rw [List.mem_singleton] at hn
    rw [hn, hfid a0]
    exact Nat.ne_of_lt (hbound a0 ha0)
  · -- request ids pairwise distinct
    exact pairwise_ids_map SwapRequest.id _ hgid db.swaps hpw
  · -- PendingBacked
    intro r2 hr2 hp2
    rcases List.mem_map.mp hr2 with ⟨r0, hr0, rfl⟩
    by_cases hc : (r0.id == swap.id) = true
    · rw [if_pos hc] at hp2
      simp [SwapRequest.is_pending] at hp2
    · rw [if_neg hc] at hp2 ⊢
      rcases hpb r0 hr0 hp2 with ⟨a2, ha2, hid2, hst2⟩
      have hne2 : (a2.id == asg.id) = false := by
        by_cases heq : (a2.id == asg.id) = true
        · exfalso
          have hasg2 : r0.assignmentId = swap.assignmentId := by
            rw [← hid2, beq_iff_eq.mp heq]
            exact hasgid
          have hids : r0.id = swap.id := hop r0 hr0 swap hswapmem hp2 hswappend hasg2
          rw [hids] at hc
          simp at hc
        · simpa using heq
      refine ⟨(if a2.id == asg.id then { a2 with status := AssignmentStatus.covered } else a2),
        List.mem_append.mpr (Or.inl (List.mem_map_of_mem _ ha2)), ?_, ?_⟩
      · rw [hne2]
        simpa using hid2
      · rw [hne2]
        simpa using hst2
  · -- OnePendingPerAssignment
    intro r2 hr2 q2 hq2 hp2 hq2p hasg2
    rcases List.mem_map.mp hr2 with ⟨r0, hr0, rfl⟩
    rcases List.mem_map.mp hq2 with ⟨q0, hq0, rfl⟩
    by_cases hc1 : (r0.id == swap.id) = true
    · rw [if_pos hc1] at hp2
      simp [SwapRequest.is_pending] at hp2
    · by_cases hc2 : (q0.id == swap.id) = true
      · rw [if_pos hc2] at hq2p
        simp [SwapRequest.is_pending] at hq2p
      · rw [if_neg hc1] at hp2 hasg2 ⊢
        rw [if_neg hc2] at hq2p hasg2 ⊢
        exact hop r0 hr0 q0 hq0 hp2 hq2p hasg2
  · -- overlap freedom
    intro a1 h1 a2 h2 hne huser hact1 hact2 s1 hs1 s2 hs2 hid1 hid2
    rcases List.mem_append.mp h1 with h1c | h1n <;> rcases List.mem_append.mp h2 with h2c | h2n
    · exact hnoCov a1 h1c a2 h2c hne huser hact1 hact2 s1 hs1 s2 hs2 hid1 hid2
    · rw [List.mem_singleton] at h2n
      subst h2n
      rcases List.mem_map.mp h1c with ⟨a0, ha0, rfl⟩
      by_cases hcc : (a0.id == asg.id) = true
      · rw [if_pos hcc] at hact1
        simp [activeStatus] at hact1
      · rw [if_neg hcc] at huser hact1 hid1
        have hu0 : a0.userId = incoming.id := huser
        have hs2eq : s2 = shift :=
          pairwise_id_unique Shift.id db.shifts hps s2 shift hs2 hshiftmem (by rw [hid2])
        rw [hs2eq]
        by_cases hseq : s1.id = shift.id
        · exact (hnoactive a0 ha0 (by simpa using hcc) (by rw [← hid1]; exact hseq)
            hu0 hact1).elim
        · intro hov
          have hmemA : (a0, s1) ∈ activeWithShifts db incoming.id :=
            (mem_activeWithShifts db incoming.id (a0, s1)).mpr ⟨ha0, hu0, hact1, by
              unfold DB.findShift
              rw [← hid1]
              exact find_by_id_of_mem Shift.id db.shifts hps s1 hs1⟩
          have hfalse := List.find?_eq_none.mp hconfNone (a0, s1) hmemA
          apply hfalse
          show (decide (s1.startUtc < shift.endUtc) && decide (s1.endUtc > shift.startUtc) &&
            decide (s1.id ≠ shift.id)) = true
          rw [decide_eq_true hov.1, decide_eq_true hov.2, decide_eq_true hseq]
          rfl
    · rw [List.mem_singleton] at h1n
      subst h1n
      rcases List.mem_map.mp h2c with ⟨a0, ha0, rfl⟩
      by_cases hcc : (a0.id == asg.id) = true
      · rw [if_pos hcc] at hact2
        simp [activeStatus] at hact2
      · rw [if_neg hcc] at huser hact2 hid2
        have hu0 : a0.userId = incoming.id := huser.symm
        have hs1eq : s1 = shift :=
          pairwise_id_unique Shift.id db.shifts hps s1 shift hs1 hshiftmem (by rw [hid1])
        rw [hs1eq]
        by_cases hseq : s2.id = shift.id
        · exact (hnoactive a0 ha0 (by simpa using hcc) (by rw [← hid2]; exact hseq)
            hu0 hact2).elim
        · intro hov
          have hmemA : (a0, s2) ∈ activeWithShifts db incoming.id :=
            (mem_activeWithShifts db incoming.id (a0, s2)).mpr ⟨ha0, hu0, hact2, by
              unfold DB.findShift
              rw [← hid2]
              exact find_by_id_of_mem Shift.id db.shifts hps s2 hs2⟩
          have hfalse := List.find?_eq_none.mp hconfNone (a0, s2) hmemA
          apply hfalse
          show (decide (s2.startUtc < shift.endUtc) && decide (s2.endUtc > shift.startUtc) &&
            decide (s2.id ≠ shift.id)) = true
          rw [decide_eq_true hov.2, decide_eq_true hov.1, decide_eq_true hseq]
          rfl
    · rw [List.mem_singleton] at h1n h2n
      rw [h1n, h2n] at hne
      exact absurd rfl hne

/-- Manager approval preserves the workflow invariant whenever the reviewed
request is still PENDING_MANAGER: the duplicate-create branch is rolled back
wholesale (ATOMIC_REQUESTS), and the other success branch is covered by the
engine re-run together with the view's own duplicate guard. -/
theorem approve_preserves (db : DB) (swapId managerId : Nat)
    (hpm : ∀ r ∈ db.swaps, r.id = swapId → r.status = SwapStatus.pendingManager)
    (h : WorkflowInv db) :
    WorkflowInv (approve_swap db swapId managerId) := by
  have hinv0 : WorkflowInv db := h
  unfold approve_swap
  cases hfind : db.swaps.find? (fun r => r.id == swapId) with
  | none => exact hinv0
  | some swap =>
    dsimp only
    cases hincf : incomingIdOf swap with
    | none => exact hinv0
    | some incomingId =>
      dsimp only
      cases huserf : db.findUser incomingId with
      | none =>
        cases hasgf : db.findAssignment swap.assignmentId with
        | none => exact hinv0
        | some asg => exact hinv0
      | some incoming =>
        cases hasgf : db.findAssignment swap.assignmentId with
        | none => exact hinv0
        | some asg =>
          dsimp only
          cases hshiftf : db.findShift asg.shiftId with
          | none => exact hinv0
          | some shift =>
            dsimp only
            cases hres : ConstraintEngine.check db incoming shift with
            | error e => exact hinv0
            | ok result =>
              dsimp only
              by_cases hfail : result.ok = false ∧ result.severity ≠ "override_required"
              · rw [if_pos hfail]
                exact hinv0
              · rw [if_neg hfail]
                have hswapmem : swap ∈ db.swaps := List.mem_of_find?_eq_some hfind
                have hswapid : swap.id = swapId := by
                  simpa using List.find?_some hfind
                have hpmswap : swap.status = SwapStatus.pendingManager :=
                  hpm swap hswapmem hswapid
                have hasgid : asg.id = swap.assignmentId := by
                  have h0 := hasgf
                  unfold DB.findAssignment at h0
                  simpa using List.find?_some h0
                have hshiftmem : shift ∈ db.shifts := by
                  have h0 := hshiftf
                  unfold DB.findShift at h0
                  exact List.mem_of_find?_eq_some h0
                have hpassed : result.ok = true ∨ result.severity = "override_required" := by
                  rcases not_and_or.mp hfail with h1 | h2
                  · cases hok : result.ok with
                    | false => exact absurd hok h1
                    | true => exact Or.inl rfl
                  · exact Or.inr (not_not.mp h2)
                by_cases hdup : ((db.assignments.map (fun a =>
                    if a.id == asg.id then { a with status := AssignmentStatus.covered }
                    else a)).any (fun a =>
                    a.shiftId == shift.id && a.userId == incoming.id &&
                    activeStatus a.status)) = true
                · rw [if_pos hdup]
                  exact hinv0
                · rw [if_neg hdup]
                  exact approve_core_preserves db managerId swap incoming asg shift result
                    hswapmem hpmswap hasgid hshiftmem hres hpassed (by simpa using hdup) hinv0

-- ---------------------------------------------------------------------------
-- C1: the no-overlap invariant under the swap workflow, and claim_shift
-- ---------------------------------------------------------------------------

/-- One step of the swap workflow: a manager approval (of a request that is
still PENDING_MANAGER - a status the view itself never checks), a requester
cancellation, or either expiry task at any instant. -/
inductive SwapStep : DB → DB → Prop where
  | approve (db : DB) (swapId managerId : Nat)
      (hpm : ∀ r ∈ db.swaps, r.id = swapId → r.status = SwapStatus.pendingManager) :
      SwapStep db (approve_swap db swapId managerId)
  | cancel (db : DB) (swapId userId : Nat) : SwapStep db (cancel_swap db swapId userId)
  | expireDrops (db : DB) (now : Int) : SwapStep db (expire_drop_requests db now)
  | expireSwaps (db : DB) (now : Int) : SwapStep db (expire_swap_requests db now)

/-- Every swap-workflow step preserves the strengthened invariant. -/
theorem swapStep_preserves {db db2 : DB} (hstep : SwapStep db db2) (h : WorkflowInv db) :
    WorkflowInv db2 := by
  cases hstep with
  | approve swapId managerId hpm => exact approve_preserves db swapId managerId hpm h
  | cancel swapId userId => exact cancel_preserves db swapId userId h
  | expireDrops now => exact expire_drop_preserves db now h
  | expireSwaps now => exact expire_swap_preserves db now h

/-- Two overlapping published shifts at the UTC site; Alice actively holds the
first and the second is open. The state satisfies the full workflow invariant. -/
def dbC1 : DB :=
  baseDB [mkShift 1 1 540 1020, mkShift 2 1 600 1080] [mkAsg 100 1 1]
    [weeklyAvail 1 0 0 1439 utcTz] 101

/-- Claim C1 counterexample: the claim view (views.py line 666) checks only
that the shift is not fully staffed and runs no constraint check, so a worker
claiming an open shift that overlaps their own active assignment on a
DIFFERENT shift (the duplicate rollback does not fire across shifts) produces
two overlapping active assignments: the invariant does not hold after the
assignment-creating claim operation. -/
theorem c1_counterexample :
    WorkflowInv dbC1 ∧ ¬ noOverlappingActive (claim_shift dbC1 2 1) :=
  ⟨by decide, by decide⟩

/-- Claim C1 (corrected: the invariant is preserved by every sequence of
approve, cancel and expire operations - with each approval reviewing a
request still in PENDING_MANAGER, a status the view itself never checks - but
NOT by the shift-claim operation, which runs no constraint check and can
create an overlap): from any state satisfying the strengthened workflow
invariant, after any such sequence no worker holds two active assignments
(ASSIGNED or SWAP_PENDING) whose shifts' UTC intervals overlap, even across
sites. -/
theorem c1_no_overlap_preserved (db db2 : DB) (h : WorkflowInv db)
    (hsteps : Relation.ReflTransGen SwapStep db db2) :
    noOverlappingActive db2 := by
  have hinv : WorkflowInv db2 := by
    induction hsteps with
    | refl => exact h
    | tail hab hbc ih => exact swapStep_preserves hbc ih
  exact hinv.2.2.2

/-- The corrected claim C1 evaluated on a concrete approval sequence. -/
theorem c1_witness :
    WorkflowInv dbC4 ∧ noOverlappingActive (approve_swap dbC4 50 9) :=
  ⟨by decide,
   c1_no_overlap_preserved dbC4 (approve_swap dbC4 50 9) (by decide)
     (Relation.ReflTransGen.single (SwapStep.approve dbC4 50 9 (by decide)))⟩
